import Mathlib

/-!
Verification development for the SCP-Tools codec (SCP-ECG reader,
anonymizer and anonymization verifier).

The Python sources are embedded shallowly:

* byte buffers are `List Nat` (each element a byte value `< 256` in every
  run of the original program);
* Python slice reads `d[a:b]` and slice assignments `d[a:b] = r` are the
  total functions `slice` and `spliceAssign` below, with Python's clamping
  semantics (a slice assignment of a differently sized `r` changes the
  buffer length, exactly as `bytearray` does);
* `struct.unpack` reads are modelled by `readU16le`/`readU32le`; every call
  site either sits under a loop guard that makes the read in range (noted
  per definition) or is guarded by an explicit length test returning
  `none` (the Python exception path);
* `while` loops are written as fuel-indexed structural recursions.  For
  every loop of the source that terminates, the chosen wrapper fuel
  (`d.length + 1`) dominates the loop's iteration count, because each
  iteration advances the pointer by at least one position; a fuel-out
  result therefore models actual non-termination of the Python loop.
-/

namespace SCP

/-- Little-endian two-byte encoding of a natural number, as produced by
`struct.pack('<H', n)` (low byte first, value taken mod 2^16). -/
def u16le (n : Nat) : List Nat := [n % 256, n / 256 % 256]

/-- Little-endian four-byte encoding, as produced by `struct.pack('<I', n)`. -/
def u32le (n : Nat) : List Nat :=
  [n % 256, n / 256 % 256, n / 65536 % 256, n / 16777216 % 256]

/-- Value of `struct.unpack('<H', d[p:p+2])`; call sites are in range. -/
def readU16le (d : List Nat) (p : Nat) : Nat :=
  d.getD p 0 + 256 * d.getD (p + 1) 0

/-- Value of `struct.unpack('<I', d[p:p+4])`; call sites are in range. -/
def readU32le (d : List Nat) (p : Nat) : Nat :=
  d.getD p 0 + 256 * d.getD (p + 1) 0 + 65536 * d.getD (p + 2) 0 +
    16777216 * d.getD (p + 3) 0

/-- Signed byte, `struct.unpack('b', ...)`. -/
def s8 (b : Nat) : Int := if b < 128 then (b : Int) else (b : Int) - 256

/-- Signed little-endian 16-bit value, `struct.unpack('<h', ...)`. -/
def s16le (b0 b1 : Nat) : Int :=
  if b0 + 256 * b1 < 32768 then (b0 + 256 * b1 : Int)
  else (b0 + 256 * b1 : Int) - 65536

/-- Python slice `d[a:b]` (for `0 ≤ a ≤ b`; both bounds clamped). -/
def slice (d : List Nat) (a b : Nat) : List Nat := (d.take b).drop a

/-- Python `bytearray` slice assignment `d[a:b] = r`.  Both bounds are
clamped to the buffer; the addressed range is removed and `r` is inserted
in its place, so the buffer length changes by `r.length` minus the length
of the clamped range. -/
def spliceAssign (d : List Nat) (a b : Nat) (r : List Nat) : List Nat :=
  d.take (min a d.length) ++ r ++ d.drop (max (min a d.length) (min b d.length))

/-- One shift-xor round of `SCPAnonymizer.calculate_crc_ccitt`
(polynomial 0x1021, result masked to 16 bits). -/
def crcRound (c : Nat) : Nat :=
  if c &&& 32768 ≠ 0 then ((c <<< 1) ^^^ 4129) &&& 65535 else (c <<< 1) &&& 65535

/-- Per-byte step of the CRC: xor the byte into the high bits, then run
eight rounds. -/
def crcByte (c b : Nat) : Nat := crcRound^[8] (c ^^^ (b <<< 8))

/-- `SCPAnonymizer.calculate_crc_ccitt`: CRC-CCITT with initial value
0xFFFF over a byte list. -/
def crc16 (d : List Nat) : Nat := d.foldl crcByte 65535

/-! ### Section-header reads

`SCPReader._parse_sections` and `SCPAnonymizer._anonymize_section_1` read
the section id at the current pointer and the size at `pointer + 2`;
`AnonymizationVerifier._find_section`, `check_section_1_tags` and
`check_file_structure` read the id at `pointer + 2` and the size at
`pointer + 4`. -/

/-- Section id as the Reader/Anonymizer walks read it: `d[p:p+2]`. -/
def readerHeaderId (d : List Nat) (p : Nat) : Nat := readU16le d p

/-- Section size as the Reader/Anonymizer walks read it: `d[p+2:p+6]`. -/
def readerHeaderSize (d : List Nat) (p : Nat) : Nat := readU32le d (p + 2)

/-- Section id as the Verifier walks read it: `d[p+2:p+4]`. -/
def verifierHeaderId (d : List Nat) (p : Nat) : Nat := readU16le d (p + 2)

/-- Section size as the Verifier walks read it: `d[p+4:p+8]`. -/
def verifierHeaderSize (d : List Nat) (p : Nat) : Nat := readU32le d (p + 4)

/-! ### Anonymizer: Section 1 tag redaction -/

/-- The byte block `b"REMOVED\x00"` that `_anonymize_section_1_tags`
tiles over name tags. -/
def removedBlock : List Nat := [82, 69, 77, 79, 86, 69, 68, 0]

/-- `(b'REMOVED\x00' * (L // 8 + 1))[:L]`: the replacement written over a
name tag of declared length `L`. -/
def removedBytes (L : Nat) : List Nat :=
  ((List.replicate (L / 8 + 1) removedBlock).flatten).take L

/-- `anonymous_id` encoded to ASCII, truncated to the tag length and
NUL-padded: the replacement for tag 2. -/
def anonBytes (anonId : List Nat) (L : Nat) : List Nat :=
  anonId.take L ++ List.replicate (L - anonId.length) 0

/-- The `while` loop of `SCPAnonymizer._anonymize_section_1_tags`.
`endI` is the `end` bound computed on entry (an `Int`, because the Python
code passes `section_size - 8`, which may be negative).  The reads of the
tag byte and the length are in range whenever the guard holds, because
`endI` never exceeds the entry-time buffer length and the buffer never
shrinks.  The only reachable exception of the body is the `IndexError` of
the two single-byte stores in the date-of-birth branch, caught by the
`except` that advances the pointer by one. -/
def anonTagsLoop (anonId : List Nat) : Nat → List Nat → Nat → Int → List Nat
  | 0, d, _, _ => d
  | fuel + 1, d, p, endI =>
    if (p : Int) < endI - 3 then
      let tag := d.getD p 0
      if tag = 255 then d
      else
        let L := readU16le d (p + 1)
        let vs := p + 3
        if tag = 2 then
          anonTagsLoop anonId fuel
            (spliceAssign d vs (min (vs + L) d.length) (anonBytes anonId L)) (p + 3 + L) endI
        else if tag = 6 ∨ tag = 7 ∨ tag = 8 ∨ tag = 9 then
          anonTagsLoop anonId fuel
            (spliceAssign d vs (min (vs + L) d.length) (removedBytes L)) (p + 3 + L) endI
        else if tag = 10 then
          if 4 ≤ L then
            let d1 := spliceAssign d vs (vs + 2) [7, 108]
            if vs + 2 < d1.length then
              let d2 := d1.set (vs + 2) 1
              if vs + 3 < d2.length then
                anonTagsLoop anonId fuel (d2.set (vs + 3) 1) (p + 3 + L) endI
              else anonTagsLoop anonId fuel d2 (p + 1) endI
            else anonTagsLoop anonId fuel d1 (p + 1) endI
          else anonTagsLoop anonId fuel d (p + 3 + L) endI
        else anonTagsLoop anonId fuel d (p + 3 + L) endI
    else d

/-- `SCPAnonymizer._anonymize_section_1_tags(start, length)`: runs the tag
loop with `end = min(start + length, len(data))`.  The wrapper fuel
`d.length + 1` dominates the iteration count because the pointer strictly
increases while staying below `endI ≤ d.length`. -/
def anonymizeSection1Tags (anonId d : List Nat) (start : Nat) (length : Int) : List Nat :=
  anonTagsLoop anonId (d.length + 1) d start (min ((start : Int) + length) (d.length : Int))

/-- The locator loop of `SCPAnonymizer._anonymize_section_1`: scan section
headers from offset 6, redact the first section with id 1 whose size is
below the buffer length, then stop.  All reads are in range under the
guard, so the `except` branch of the source is unreachable; on a
non-positive or oversized size the pointer advances by one (best-effort
scan). -/
def anonS1Loop (anonId : List Nat) : Nat → List Nat → Nat → List Nat
  | 0, d, _ => d
  | fuel + 1, d, p =>
    if (p : Int) < (d.length : Int) - 10 then
      let sid := readerHeaderId d p
      let ssize := readerHeaderSize d p
      if sid = 1 ∧ ssize < d.length then
        anonymizeSection1Tags anonId d (p + 8) ((ssize : Int) - 8)
      else if 0 < ssize ∧ ssize < d.length then
        anonS1Loop anonId fuel d (p + ssize)
      else
        anonS1Loop anonId fuel d (p + 1)
    else d

/-- `SCPAnonymizer._anonymize_section_1`. -/
def anonymizeSection1 (anonId d : List Nat) : List Nat :=
  anonS1Loop anonId (d.length + 1) d 6

/-! ### Anonymizer: file-wide search and replace -/

/-- Does `pat` occur in `d` at position `i` (with the full pattern inside
the buffer)?  Mirrors the match condition of `bytearray.find`. -/
def matchesAt (d pat : List Nat) (i : Nat) : Bool :=
  (d.drop i).take pat.length == pat

/-- Scan helper for `bytearray.find(pat, i)`. -/
def listFindAux (d pat : List Nat) : Nat → Nat → Option Nat
  | 0, _ => none
  | fuel + 1, i =>
    if i + pat.length ≤ d.length then
      if matchesAt d pat i then some i else listFindAux d pat fuel (i + 1)
    else none

/-- `bytearray.find(pat, i)`: the least position `j ≥ i` where `pat`
occurs, `none` standing for Python's `-1`. -/
def listFind (d pat : List Nat) (i : Nat) : Option Nat :=
  listFindAux d pat (d.length + 1 - i) i

/-- The replacement loop of `SCPAnonymizer.find_and_replace_text`: find
the next occurrence, overwrite it with `repl` truncated to the pattern
length and NUL-padded (a same-length splice), continue after it.  The
count it returns in Python feeds only the change log and is dropped
here. -/
def farLoop (pat repl : List Nat) : Nat → List Nat → Nat → List Nat
  | 0, d, _ => d
  | fuel + 1, d, i =>
    match listFind d pat i with
    | none => d
    | some j =>
      farLoop pat repl fuel
        (spliceAssign d j (j + pat.length)
          (repl.take pat.length ++ List.replicate (pat.length - repl.length) 0))
        (j + pat.length)

/-- `SCPAnonymizer.find_and_replace_text` (for a nonempty pattern; every
call site passes one). -/
def findAndReplaceText (pat repl d : List Nat) : List Nat :=
  farLoop pat repl (d.length + 1) d 0

/-- The hardcoded sample patient ids of `anonymize_patient_data`, as ASCII
bytes: "197001138994", "191010101010", "123456789", "1970011389",
"1910101010", "12345678". -/
def idList : List (List Nat) :=
  [[49, 57, 55, 48, 48, 49, 49, 51, 56, 57, 57, 52],
   [49, 57, 49, 48, 49, 48, 49, 48, 49, 48, 49, 48],
   [49, 50, 51, 52, 53, 54, 55, 56, 57],
   [49, 57, 55, 48, 48, 49, 49, 51, 56, 57],
   [49, 57, 49, 48, 49, 48, 49, 48, 49, 48],
   [49, 50, 51, 52, 53, 54, 55, 56]]

/-- UTF-16LE encoding of an ASCII byte string (each byte followed by 0). -/
def utf16Of (l : List Nat) : List Nat := (l.map (fun b => [b, 0])).flatten

/-- ASCII bytes of `b'test'`. -/
def testBytes : List Nat := [116, 101, 115, 116]

/-- ASCII bytes of `b'ANON'`. -/
def anonMarker : List Nat := [65, 78, 79, 78]

/-- Every byte pattern the file-wide replacement passes search for. -/
def searchPatterns : List (List Nat) := idList ++ idList.map utf16Of ++ [testBytes]

/-- `SCPAnonymizer.anonymize_patient_data`: for each hardcoded id replace
its ASCII then its UTF-16LE occurrences with the same encoding of
`anonymous_id`, then replace `b'test'` with `b'ANON'`, then redact
Section 1. -/
def anonymizePatientData (anonId d : List Nat) : List Nat :=
  let d1 := idList.foldl (fun acc oid =>
    findAndReplaceText (utf16Of oid) (utf16Of anonId) (findAndReplaceText oid anonId acc)) d
  let d2 := findAndReplaceText testBytes anonMarker d1
  anonymizeSection1 anonId d2

/-- Default `anonymous_id`, ASCII of "ANON000000". -/
def defaultAnonId : List Nat := [65, 78, 79, 78, 48, 48, 48, 48, 48, 48]

/-- `SCPAnonymizer.update_file_size`: write the current length as a
little-endian u32 into bytes `[2, 6)`. -/
def updateFileSize (d : List Nat) : List Nat := spliceAssign d 2 6 (u32le d.length)

/-- `SCPAnonymizer.update_crc`: compute the CRC over `d[2:]` and write it
as a little-endian u16 into bytes `[0, 2)`. -/
def updateCrc (d : List Nat) : List Nat := spliceAssign d 0 2 (u16le (crc16 (d.drop 2)))

/-- The finalization performed by `SCPAnonymizer.save_anonymized`: file
size first, then CRC. -/
def saveAnonymized (d : List Nat) : List Nat := updateCrc (updateFileSize d)

/-- The buffer-level effect of `SCPAnonymizer.anonymize` (file I/O
elided): `anonymize_patient_data` followed by `save_anonymized`. -/
def anonymizeBuffer (anonId d : List Nat) : List Nat :=
  saveAnonymized (anonymizePatientData anonId d)

/-! ### Reader: section walk -/

/-- The `while` loop of `SCPReader._parse_sections`, yielding the list of
`(id, pointer, size)` triples in walk order.  All reads are in range under
the guard, so the `except: break` of the source is unreachable; the walk
breaks on `id == 0` and otherwise advances the pointer by the declared
size, with no guard against a zero size.  `none` means the fuel ran out,
which for fuel `d.length + 1` happens exactly when the Python loop never
terminates. -/
def goSections (d : List Nat) : Nat → Nat → Option (List (Nat × Nat × Nat))
  | 0, _ => none
  | fuel + 1, p =>
    if (p : Int) < (d.length : Int) - 10 then
      let sid := readerHeaderId d p
      let ssize := readerHeaderSize d p
      if sid = 0 then some []
      else
        match goSections d fuel (p + ssize) with
        | none => none
        | some rest => some ((sid, p, ssize) :: rest)
    else some []

/-- `SCPReader._parse_sections` (strict reader walk from offset 6). -/
def parseSections (d : List Nat) : Option (List (Nat × Nat × Nat)) :=
  goSections d (d.length + 1) 6

/-- Python keeps sections in a dict keyed by id, so a repeated id keeps
the last occurrence. -/
def lookupLastSection (sid : Nat) (secs : List (Nat × Nat × Nat)) :
    Option (Nat × Nat × Nat) :=
  (secs.filter (fun e => e.1 == sid)).getLast?

/-! ### Reader: Section 6 rhythm decoding -/

/-- Sample loop for the uncompressed branch of `_parse_rhythm_data`: the
iteration count is fixed up front; each step reads one little-endian
signed 16-bit sample when two bytes remain. -/
def rawSteps (d : List Nat) : Nat → Nat → List Int → List Int × Nat
  | 0, p, acc => (acc, p)
  | n + 1, p, acc =>
    if p + 2 ≤ d.length then
      rawSteps d n (p + 2) (acc ++ [s16le (d.getD p 0) (d.getD (p + 1) 0)])
    else rawSteps d n p acc

/-- One lead in raw mode: `min(num_samples, (len - p) / 2)` samples. -/
def rawLead (d : List Nat) (ns p : Nat) : List Int × Nat :=
  rawSteps d (min ns ((d.length - p) / 2)) p []

/-- Delta loop of `_parse_rhythm_data`: each step reads one signed byte
and appends the previous sample plus that delta (when a reference sample
exists). -/
def deltaSteps (d : List Nat) : Nat → Nat → List Int → List Int × Nat
  | 0, p, acc => (acc, p)
  | n + 1, p, acc =>
    if p < d.length then
      let acc' := match acc.getLast? with
        | some v => acc ++ [v + s8 (d.getD p 0)]
        | none => acc
      deltaSteps d n (p + 1) acc'
    else deltaSteps d n p acc

/-- One lead in delta mode: a 16-bit little-endian reference sample when
two bytes remain, then `min(num_samples - 1, len - pointer)` deltas. -/
def deltaLead (d : List Nat) (ns p : Nat) : List Int × Nat :=
  if p + 2 ≤ d.length then
    deltaSteps d (min (ns - 1) (d.length - (p + 2))) (p + 2)
      [s16le (d.getD p 0) (d.getD (p + 1) 0)]
  else
    deltaSteps d (min (ns - 1) (d.length - p)) p []

/-- Per-lead loop of `_parse_rhythm_data`: read the four-byte sample count
(default 5000 when fewer than four bytes remain), decode the lead in raw
or delta mode, and keep nonempty sample lists. -/
def leadLoop (d : List Nat) (comp : Nat) : Nat → Nat → List (List Int) → List (List Int) × Nat
  | 0, _, acc => (acc, 0)
  | i + 1, p, acc =>
    let np := if p + 4 ≤ d.length then (readU32le d p, p + 4) else (5000, p)
    let sp := if comp = 0 then rawLead d np.1 np.2 else deltaLead d np.1 np.2
    leadLoop d comp i sp.2 (if sp.1 = [] then acc else acc ++ [sp.1])

/-- `SCPReader._parse_rhythm_data` on one Section 6 payload, returning the
sampling rate, the (clamped) lead count and the decoded leads.  A payload
shorter than the eight header bytes raises in Python and falls back to
synthetic data; that exception path is `none`.  After the header all reads
are guarded, so no further exception can occur. -/
def parseRhythmData (d : List Nat) : Option (Nat × Nat × List (List Int)) :=
  if 8 ≤ d.length then
    let interval := readU16le d 2
    let rate := if 0 < interval then 1000000 / interval else 500
    let comp := d.getD 5 0
    let nl0 := readU16le d 6
    let nl := if nl0 = 0 ∨ 12 < nl0 then 12 else nl0
    some (rate, nl, (leadLoop d comp nl 10 []).1)
  else none

/-- The waveform the Reader recovers from a whole file: walk the section
table, take the last section with id 6, decode its payload
`d[start+8 : start+size]`.  `none` collapses the degraded paths (no
section table, no Section 6, payload too short), on which the Python
reader substitutes synthetic data. -/
def readerWaveform (d : List Nat) : Option (Nat × Nat × List (List Int)) :=
  (parseSections d).bind (fun secs =>
    (lookupLastSection 6 secs).bind (fun e =>
      parseRhythmData (slice d (e.2.1 + 8) (e.2.1 + e.2.2))))

/-! ### Verifier -/

/-- The loop of `AnonymizationVerifier._find_section`: scan from offset 6
while `pointer < len - 16`, reading the id at `pointer + 2` and the size
at `pointer + 4`; return `d[pointer : pointer + size]` on a match, stop on
a zero size. -/
def verifFindLoop (d : List Nat) (sid : Nat) : Nat → Nat → Option (List Nat)
  | 0, _ => none
  | fuel + 1, p =>
    if (p : Int) < (d.length : Int) - 16 then
      if verifierHeaderId d p = sid ∧ verifierHeaderSize d p < d.length then
        some (slice d p (p + verifierHeaderSize d p))
      else if 0 < verifierHeaderSize d p then
        verifFindLoop d sid fuel (p + verifierHeaderSize d p)
      else none
    else none

/-- `AnonymizationVerifier._find_section`. -/
def verifFindSection (d : List Nat) (sid : Nat) : Option (List Nat) :=
  verifFindLoop d sid (d.length + 1) 6

/-- Python `value.decode('ascii', errors='ignore')` keeps the bytes below
128. -/
def asciiIgnore (l : List Nat) : List Nat := l.filter (fun b => decide (b < 128))

/-- Python `.rstrip('\x00')`. -/
def rstripZeros (l : List Nat) : List Nat :=
  (l.reverse.dropWhile (fun b => b == 0)).reverse

/-- The issue test `AnonymizationVerifier._verify_tag` applies to the
physician (21) and technician (22) tags: an issue is recorded unless every
byte is zero or the decoded, NUL-stripped text is empty. -/
def tag2122Issue (v : List Nat) : Bool :=
  if v.all (fun b => b == 0) then false
  else decide (0 < (rstripZeros (asciiIgnore v)).length)

/-! ### Encoded tag regions

A well-formed Section 1 payload is a concatenation of tag/length/value
triples.  `encTag`/`encTags` build such regions; `redactValue` states, per
tag id, the value the anonymizer's tag loop writes. -/

/-- One tag/length/value triple: id byte, little-endian u16 length, value. -/
def encTag (t : Nat × List Nat) : List Nat := t.1 :: (u16le t.2.length ++ t.2)

/-- A concatenation of encoded tags. -/
def encTags (ts : List (Nat × List Nat)) : List Nat := (ts.map encTag).flatten

/-- Well-formedness of one tag for the redaction theorems: the id is a
byte other than the terminator, the value is nonempty and its length fits
the u16 length field. -/
def wfTag (t : Nat × List Nat) : Prop :=
  t.1 < 255 ∧ 1 ≤ t.2.length ∧ t.2.length < 65536

instance (t : Nat × List Nat) : Decidable (wfTag t) := by
  unfold wfTag
  infer_instance

/-- The value `_anonymize_section_1_tags` leaves in a tag of id `id` whose
original value is `v`: tag 2 gets the padded `anonymous_id`, the name tags
6/7/8/9 get the tiled `REMOVED\x00` text, tag 10 (when at least four bytes
long) gets year 1900, month 1, day 1; every other tag is untouched. -/
def redactValue (anonId : List Nat) (id : Nat) (v : List Nat) : List Nat :=
  if id = 2 then anonBytes anonId v.length
  else if id = 6 ∨ id = 7 ∨ id = 8 ∨ id = 9 then removedBytes v.length
  else if id = 10 ∧ 4 ≤ v.length then [7, 108, 1, 1] ++ v.drop 4
  else v

/-- `redactValue` applied inside a tag pair. -/
def redactTag (anonId : List Nat) (t : Nat × List Nat) : Nat × List Nat :=
  (t.1, redactValue anonId t.1 t.2)

/-- A file whose first section is a Section 1 with payload `encTags ts`:
six header bytes, the section header `id = 1`, the declared size
`8 + |payload|`, version and protocol bytes, the payload, then the rest of
the file. -/
def sec1File (ts : List (Nat × List Nat)) (ver prot : Nat) (post : List Nat) : List Nat :=
  List.replicate 6 0 ++ [1, 0] ++ u32le (8 + (encTags ts).length) ++ [ver, prot] ++
    encTags ts ++ post

/-! ### Arithmetic and list helper lemmas -/

lemma crcRound_le (c : Nat) : crcRound c ≤ 65535 := by
  unfold crcRound
  split <;> exact Nat.and_le_right

lemma crcByte_lt (c b : Nat) : crcByte c b < 65536 := by
  unfold crcByte
  rw [show (8 : Nat) = 7 + 1 from rfl, Function.iterate_succ_apply']
  exact Nat.lt_succ_of_le (crcRound_le _)

lemma foldl_crcByte_lt : ∀ (d : List Nat) (c : Nat), c < 65536 → d.foldl crcByte c < 65536
  | [], _, h => h
  | _ :: t, c, _ => foldl_crcByte_lt t _ (crcByte_lt c _)

lemma crc16_lt (d : List Nat) : crc16 d < 65536 :=
  foldl_crcByte_lt d 65535 (by norm_num)

lemma getD_append_add (A l : List Nat) (k : Nat) :
    (A ++ l).getD (A.length + k) 0 = l.getD k 0 := by
  rw [List.getD_append_right _ _ _ _ (Nat.le_add_right _ _)]
  congr 1
  omega

lemma readU16le_shift (A l : List Nat) (k : Nat) :
    readU16le (A ++ l) (A.length + k) = readU16le l k := by
  unfold readU16le
  rw [show A.length + k + 1 = A.length + (k + 1) by omega, getD_append_add, getD_append_add]

lemma readU32le_shift (A l : List Nat) (k : Nat) :
    readU32le (A ++ l) (A.length + k) = readU32le l k := by
  unfold readU32le
  rw [show A.length + k + 1 = A.length + (k + 1) by omega,
    show A.length + k + 2 = A.length + (k + 2) by omega,
    show A.length + k + 3 = A.length + (k + 3) by omega,
    getD_append_add, getD_append_add, getD_append_add, getD_append_add]

lemma readU16le_u16le (n : Nat) (rest : List Nat) (h : n < 65536) :
    readU16le (u16le n ++ rest) 0 = n := by
  simp only [readU16le, u16le, List.cons_append, List.nil_append, List.getD_cons_zero,
    List.getD_cons_succ]
  omega

lemma readU32le_u32le (n : Nat) (rest : List Nat) (h : n < 4294967296) :
    readU32le (u32le n ++ rest) 0 = n := by
  simp only [readU32le, u32le, List.cons_append, List.nil_append, List.getD_cons_zero,
    List.getD_cons_succ]
  omega

lemma spliceAssign_append (A B C r : List Nat) :
    spliceAssign (A ++ B ++ C) A.length (A.length + B.length) r = A ++ r ++ C := by
  unfold spliceAssign
  have hlen : (A ++ B ++ C).length = A.length + B.length + C.length := by
    simp
    omega
  rw [hlen]
  rw [min_eq_left (by omega), min_eq_left (by omega), max_eq_right (by omega)]
  congr 1
  · rw [List.append_assoc, List.take_left]
  · congr 1
    rw [show A.length + B.length = (A ++ B).length by simp, List.drop_left]

lemma length_spliceAssign (d : List Nat) (a b : Nat) (r : List Nat) :
    (spliceAssign d a b r).length =
      min a d.length + r.length + (d.length - max (min a d.length) (min b d.length)) := by
  simp [spliceAssign]
  omega

lemma length_spliceAssign_ge (d : List Nat) (a b : Nat) (r : List Nat)
    (h : b ≤ a + r.length) : d.length ≤ (spliceAssign d a b r).length := by
  rw [length_spliceAssign]
  omega

lemma length_anonBytes (anonId : List Nat) (L : Nat) : (anonBytes anonId L).length = L := by
  simp [anonBytes]
  omega

lemma length_removedBytes (L : Nat) : (removedBytes L).length = L := by
  have h : ((List.replicate (L / 8 + 1) removedBlock).flatten).length = (L / 8 + 1) * 8 := by
    rw [List.length_flatten]
    simp [List.map_replicate, removedBlock]
  simp only [removedBytes, List.length_take, h]
  omega

lemma redactValue_length (anonId : List Nat) (id : Nat) (v : List Nat) :
    (redactValue anonId id v).length = v.length := by
  unfold redactValue
  split
  · exact length_anonBytes anonId v.length
  · split
    · exact length_removedBytes v.length
    · split
      · rename_i h3
        simp
        omega
      · rfl

/-! ### Search and replace lemmas -/

lemma listFindAux_some_bound (d pat : List Nat) :
    ∀ (fuel i j : Nat), listFindAux d pat fuel i = some j →
      i ≤ j ∧ j + pat.length ≤ d.length
  | 0, _, _, h => by simp [listFindAux] at h
  | fuel + 1, i, j, h => by
    unfold listFindAux at h
    split at h
    · split at h
      · cases h
        rename_i hle _
        exact ⟨Nat.le_refl _, hle⟩
      · have := listFindAux_some_bound d pat fuel (i + 1) j h
        exact ⟨by omega, this.2⟩
    · cases h

lemma listFind_some_bound (d pat : List Nat) (i j : Nat) (h : listFind d pat i = some j) :
    i ≤ j ∧ j + pat.length ≤ d.length :=
  listFindAux_some_bound d pat _ i j h

lemma length_farPad (pat repl : List Nat) :
    (repl.take pat.length ++ List.replicate (pat.length - repl.length) 0).length = pat.length := by
  simp
  omega

lemma farLoop_length (pat repl : List Nat) :
    ∀ (fuel : Nat) (d : List Nat) (i : Nat), (farLoop pat repl fuel d i).length = d.length
  | 0, _, _ => rfl
  | fuel + 1, d, i => by
    unfold farLoop
    cases hf : listFind d pat i with
    | none => rfl
    | some j =>
      have hb := listFind_some_bound d pat i j hf
      rw [farLoop_length pat repl fuel _ _]
      rw [length_spliceAssign]
      rw [length_farPad]
      omega

lemma findAndReplaceText_length (pat repl d : List Nat) :
    (findAndReplaceText pat repl d).length = d.length :=
  farLoop_length pat repl _ d 0

lemma findAndReplaceText_of_not_found (pat repl d : List Nat)
    (h : listFind d pat 0 = none) : findAndReplaceText pat repl d = d := by
  unfold findAndReplaceText farLoop
  rw [h]

/-! ### Length monotonicity of the tag loop and the anonymizer pipeline -/

lemma anonTagsLoop_length_ge (anonId : List Nat) :
    ∀ (fuel : Nat) (d : List Nat) (p : Nat) (endI : Int),
      d.length ≤ (anonTagsLoop anonId fuel d p endI).length
  | 0, _, _, _ => Nat.le_refl _
  | fuel + 1, d, p, endI => by
    unfold anonTagsLoop
    dsimp only
    split
    · split
      · exact Nat.le_refl _
      · split
        · refine Nat.le_trans ?_ (anonTagsLoop_length_ge anonId fuel _ _ _)
          exact length_spliceAssign_ge _ _ _ _
            (by rw [length_anonBytes]; omega)
        · split
          · refine Nat.le_trans ?_ (anonTagsLoop_length_ge anonId fuel _ _ _)
            exact length_spliceAssign_ge _ _ _ _
              (by rw [length_removedBytes]; omega)
          · split
            · split
              · have h1 : d.length ≤ (spliceAssign d (p + 3) (p + 3 + 2) [7, 108]).length :=
                  length_spliceAssign_ge _ _ _ _ (by simp)
                split
                · split
                  · refine Nat.le_trans ?_ (anonTagsLoop_length_ge anonId fuel _ _ _)
                    simpa using h1
                  · refine Nat.le_trans ?_ (anonTagsLoop_length_ge anonId fuel _ _ _)
                    simpa using h1
                · exact Nat.le_trans h1 (anonTagsLoop_length_ge anonId fuel _ _ _)
              · exact anonTagsLoop_length_ge anonId fuel _ _ _
            · exact anonTagsLoop_length_ge anonId fuel _ _ _
    · exact Nat.le_refl _

lemma anonymizeSection1Tags_length_ge (anonId d : List Nat) (start : Nat) (length : Int) :
    d.length ≤ (anonymizeSection1Tags anonId d start length).length :=
  anonTagsLoop_length_ge anonId _ d start _

lemma anonS1Loop_length_ge (anonId : List Nat) :
    ∀ (fuel : Nat) (d : List Nat) (p : Nat), d.length ≤ (anonS1Loop anonId fuel d p).length
  | 0, _, _ => Nat.le_refl _
  | fuel + 1, d, p => by
    unfold anonS1Loop
    dsimp only
    split
    · split
      · exact anonymizeSection1Tags_length_ge anonId d _ _
      · split
        · exact anonS1Loop_length_ge anonId fuel d _
        · exact anonS1Loop_length_ge anonId fuel d _
    · exact Nat.le_refl _

lemma anonymizeSection1_length_ge (anonId d : List Nat) :
    d.length ≤ (anonymizeSection1 anonId d).length :=
  anonS1Loop_length_ge anonId _ d 6

lemma foldl_far_length (anonId : List Nat) :
    ∀ (l : List (List Nat)) (acc : List Nat),
      (l.foldl (fun acc oid =>
        findAndReplaceText (utf16Of oid) (utf16Of anonId)
          (findAndReplaceText oid anonId acc)) acc).length = acc.length
  | [], _ => rfl
  | oid :: t, acc => by
    rw [List.foldl_cons, foldl_far_length anonId t _, findAndReplaceText_length,
      findAndReplaceText_length]

lemma anonymizePatientData_length_ge (anonId d : List Nat) :
    d.length ≤ (anonymizePatientData anonId d).length := by
  unfold anonymizePatientData
  refine Nat.le_trans ?_ (anonymizeSection1_length_ge anonId _)
  rw [findAndReplaceText_length, foldl_far_length]

/-! ### Delta decoding lemmas -/

lemma deltaSteps_spec (d : List Nat) :
    ∀ (n p : Nat) (a : List Int) (v : Int), p + n ≤ d.length →
      deltaSteps d n p (a ++ [v]) =
        (a ++ List.scanl (· + ·) v (((d.drop p).take n).map s8), p + n)
  | 0, p, a, v, _ => by
    simp [deltaSteps]
  | n + 1, p, a, v, h => by
    have hp : p < d.length := by omega
    have hdrop : d.drop p = d.getD p 0 :: d.drop (p + 1) := by
      rw [List.getD_eq_getElem d 0 hp]
      exact List.drop_eq_getElem_cons hp
    unfold deltaSteps
    rw [if_pos hp]
    simp only [List.getLast?_concat]
    rw [deltaSteps_spec d n (p + 1) (a ++ [v]) (v + s8 (d.getD p 0)) (by omega)]
    rw [hdrop]
    simp only [List.take_succ_cons, List.map_cons, List.scanl_cons]
    rw [Prod.mk.injEq]
    refine ⟨by simp, by omega⟩

lemma deltaLead_spec (d : List Nat) (ns p : Nat) (h1 : 1 ≤ ns)
    (h2 : p + 2 + (ns - 1) ≤ d.length) :
    deltaLead d ns p =
      (List.scanl (· + ·) (s16le (d.getD p 0) (d.getD (p + 1) 0))
        (((d.drop (p + 2)).take (ns - 1)).map s8), p + 2 + (ns - 1)) := by
  unfold deltaLead
  rw [if_pos (by omega)]
  have hmin : min (ns - 1) (d.length - (p + 2)) = ns - 1 := by omega
  rw [hmin]
  have := deltaSteps_spec d (ns - 1) (p + 2) []
    (s16le (d.getD p 0) (d.getD (p + 1) 0)) (by omega)
  simpa using this

/-! ### Whole-region redaction of an encoded tag list

`anonTags_encode` is the central correctness statement for
`_anonymize_section_1_tags`: on a buffer whose addressed region is a
well-formed concatenation of tag/length/value triples, the loop rewrites
exactly the triples' values as described by `redactValue`, leaving the
bytes before and after the region untouched. -/

lemma length_encTag (t : Nat × List Nat) : (encTag t).length = 3 + t.2.length := by
  simp [encTag, u16le]
  omega

lemma encTags_cons (t : Nat × List Nat) (ts : List (Nat × List Nat)) :
    encTags (t :: ts) = encTag t ++ encTags ts := by
  simp [encTags]

lemma length_encTag_redact (anonId : List Nat) (t : Nat × List Nat) :
    (encTag (redactTag anonId t)).length = (encTag t).length := by
  rw [length_encTag, length_encTag]
  simp [redactTag, redactValue_length]

lemma tsLength_le_encTags (ts : List (Nat × List Nat)) :
    ts.length ≤ (encTags ts).length := by
  induction ts with
  | nil => simp [encTags]
  | cons t ts ih =>
    rw [encTags_cons]
    simp only [List.length_cons, List.length_append, length_encTag]
    omega

lemma encTag_decomp (t : Nat × List Nat) :
    encTag t = (t.1 :: u16le t.2.length) ++ t.2 := by
  simp [encTag]

lemma set_append_shift (X Y : List Nat) (i x : Nat) :
    (X ++ Y).set (X.length + i) x = X ++ Y.set i x := by
  simp [List.set_append]

lemma redactValue_id2 (anonId : List Nat) (id : Nat) (v : List Nat) (h : id = 2) :
    redactValue anonId id v = anonBytes anonId v.length := by
  unfold redactValue
  rw [if_pos h]

lemma redactValue_names (anonId : List Nat) (id : Nat) (v : List Nat)
    (h2 : ¬ id = 2) (h : id = 6 ∨ id = 7 ∨ id = 8 ∨ id = 9) :
    redactValue anonId id v = removedBytes v.length := by
  unfold redactValue
  rw [if_neg h2, if_pos h]

lemma redactValue_id10 (anonId : List Nat) (id : Nat) (v : List Nat)
    (h : id = 10) (h4 : 4 ≤ v.length) :
    redactValue anonId id v = [7, 108, 1, 1] ++ v.drop 4 := by
  unfold redactValue
  rw [if_neg (by omega), if_neg (by omega), if_pos ⟨h, h4⟩]

lemma redactValue_other (anonId : List Nat) (id : Nat) (v : List Nat)
    (h2 : ¬ id = 2) (h69 : ¬ (id = 6 ∨ id = 7 ∨ id = 8 ∨ id = 9))
    (h10 : ¬ (id = 10 ∧ 4 ≤ v.length)) :
    redactValue anonId id v = v := by
  unfold redactValue
  rw [if_neg h2, if_neg h69, if_neg h10]

lemma encTag_redactTag (anonId : List Nat) (t : Nat × List Nat) :
    encTag (redactTag anonId t) = (t.1 :: u16le t.2.length) ++ redactValue anonId t.1 t.2 := by
  rw [encTag_decomp]
  simp [redactTag, redactValue_length]

lemma encode_finish (anonId : List Nat) (t : Nat × List Nat) (ts : List (Nat × List Nat))
    (pre post : List Nat) :
    (pre ++ encTag (redactTag anonId t)) ++ encTags (ts.map (redactTag anonId)) ++ post
      = pre ++ encTags ((t :: ts).map (redactTag anonId)) ++ post := by
  rw [List.map_cons, encTags_cons]
  simp

lemma anonTags_encode (anonId : List Nat) :
    ∀ (ts : List (Nat × List Nat)) (fuel : Nat) (pre post : List Nat),
      (∀ t ∈ ts, wfTag t) → ts.length < fuel →
      anonTagsLoop anonId fuel (pre ++ encTags ts ++ post) pre.length
          ((pre.length + (encTags ts).length : Nat) : Int)
        = pre ++ encTags (ts.map (redactTag anonId)) ++ post
  | [], fuel, pre, post, _, hfuel => by
    match fuel, hfuel with
    | fuel + 1, _ =>
      have h0 : (encTags ([] : List (Nat × List Nat))).length = 0 := by simp [encTags]
      unfold anonTagsLoop
      rw [if_neg (by rw [h0]; push_cast; omega)]
      simp [encTags]
  | t :: ts, fuel, pre, post, hwf, hfuel => by
    match fuel, hfuel with
    | fuel + 1, hfuel =>
      obtain ⟨hid, hv1, hv2⟩ := hwf t (List.mem_cons_self t ts)
      have hwf' : ∀ t ∈ ts, wfTag t := fun t ht => hwf t (List.mem_cons_of_mem _ ht)
      have hfuel' : ts.length < fuel := by simpa using hfuel
      have hlen1 : (encTags (t :: ts)).length = 3 + t.2.length + (encTags ts).length := by
        rw [encTags_cons]
        simp [length_encTag]
      have hplen : (pre ++ encTag (redactTag anonId t)).length
          = pre.length + 3 + t.2.length := by
        rw [List.length_append, length_encTag_redact, length_encTag]
        omega
      have hend : (pre.length + (encTags (t :: ts)).length : Nat)
          = ((pre ++ encTag (redactTag anonId t)).length + (encTags ts).length : Nat) := by
        rw [hplen]
        omega
      unfold anonTagsLoop
      rw [if_pos (by push_cast; omega)]
      dsimp only
      -- the tag byte and the declared length, read from the encoded region
      have hdata : pre ++ encTags (t :: ts) ++ post
          = pre ++ (t.1 :: (u16le t.2.length ++ t.2) ++ (encTags ts ++ post)) := by
        rw [encTags_cons]
        simp [encTag]
      have htag : (pre ++ encTags (t :: ts) ++ post).getD pre.length 0 = t.1 := by
        rw [hdata]
        have := getD_append_add pre (t.1 :: (u16le t.2.length ++ t.2) ++ (encTags ts ++ post)) 0
        simpa using this
      have hL : readU16le (pre ++ encTags (t :: ts) ++ post) (pre.length + 1) = t.2.length := by
        rw [hdata]
        have hsh := readU16le_shift pre
          (t.1 :: (u16le t.2.length ++ t.2) ++ (encTags ts ++ post)) 1
        rw [hsh]
        have heq : (t.1 :: (u16le t.2.length ++ t.2) ++ (encTags ts ++ post))
            = t.1 :: (u16le t.2.length ++ (t.2 ++ (encTags ts ++ post))) := by
          simp
        rw [heq]
        show readU16le (u16le t.2.length ++ (t.2 ++ (encTags ts ++ post))) 0 = t.2.length
        exact readU16le_u16le _ _ hv2
      rw [htag, hL, if_neg (by omega)]
      -- buffer decomposition around the value bytes
      have hsplit : pre ++ encTags (t :: ts) ++ post
          = (pre ++ (t.1 :: u16le t.2.length)) ++ t.2 ++ (encTags ts ++ post) := by
        rw [encTags_cons, encTag_decomp]
        simp
      have hAlen : (pre ++ (t.1 :: u16le t.2.length)).length = pre.length + 3 := by
        simp [u16le]
      have htotal : (pre ++ encTags (t :: ts) ++ post).length
          = pre.length + 3 + t.2.length + (encTags ts).length + post.length := by
        simp [hlen1]
        omega
      by_cases h2 : t.1 = 2
      · rw [if_pos h2]
        have hmin : min (pre.length + 3 + t.2.length)
            (pre ++ encTags (t :: ts) ++ post).length = pre.length + 3 + t.2.length := by
          rw [htotal]
          omega
        rw [hmin, hsplit]
        have hsp := spliceAssign_append (pre ++ (t.1 :: u16le t.2.length)) t.2
          (encTags ts ++ post) (anonBytes anonId t.2.length)
        rw [hAlen] at hsp
        rw [hsp]
        have hbuf : (pre ++ (t.1 :: u16le t.2.length)) ++ anonBytes anonId t.2.length
              ++ (encTags ts ++ post)
            = (pre ++ encTag (redactTag anonId t)) ++ encTags ts ++ post := by
          rw [encTag_redactTag, redactValue_id2 anonId t.1 t.2 h2]
          simp
        rw [hbuf]
        rw [show pre.length + 3 + t.2.length = (pre ++ encTag (redactTag anonId t)).length
          from hplen.symm, hend]
        rw [anonTags_encode anonId ts fuel (pre ++ encTag (redactTag anonId t)) post hwf' hfuel']
        exact encode_finish anonId t ts pre post
      · rw [if_neg h2]
        by_cases h69 : t.1 = 6 ∨ t.1 = 7 ∨ t.1 = 8 ∨ t.1 = 9
        · rw [if_pos h69]
          have hmin : min (pre.length + 3 + t.2.length)
              (pre ++ encTags (t :: ts) ++ post).length = pre.length + 3 + t.2.length := by
            rw [htotal]
            omega
          rw [hmin, hsplit]
          have hsp := spliceAssign_append (pre ++ (t.1 :: u16le t.2.length)) t.2
            (encTags ts ++ post) (removedBytes t.2.length)
          rw [hAlen] at hsp
          rw [hsp]
          have hbuf : (pre ++ (t.1 :: u16le t.2.length)) ++ removedBytes t.2.length
                ++ (encTags ts ++ post)
              = (pre ++ encTag (redactTag anonId t)) ++ encTags ts ++ post := by
            rw [encTag_redactTag, redactValue_names anonId t.1 t.2 h2 h69]
            simp
          rw [hbuf]
          rw [show pre.length + 3 + t.2.length = (pre ++ encTag (redactTag anonId t)).length
            from hplen.symm, hend]
          rw [anonTags_encode anonId ts fuel (pre ++ encTag (redactTag anonId t)) post hwf' hfuel']
          exact encode_finish anonId t ts pre post
        · rw [if_neg h69]
          by_cases h10 : t.1 = 10
          · rw [if_pos h10]
            by_cases h4 : 4 ≤ t.2.length
            · rw [if_pos h4]
              obtain ⟨b0, b1, b2, b3, v', hvdec⟩ :
                  ∃ b0 b1 b2 b3 v', t.2 = b0 :: b1 :: b2 :: b3 :: v' := by
                match hv : t.2, h4 with
                | b0 :: b1 :: b2 :: b3 :: v', _ => exact ⟨b0, b1, b2, b3, v', rfl⟩
              -- first write: the two-byte year splice
              have hsplit2 : pre ++ encTags (t :: ts) ++ post
                  = (pre ++ (t.1 :: u16le t.2.length)) ++ [b0, b1]
                      ++ (b2 :: b3 :: v' ++ (encTags ts ++ post)) := by
                rw [encTags_cons, encTag_decomp, hvdec]
                simp
              have hsp2 : spliceAssign ((pre ++ (t.1 :: u16le t.2.length)) ++ [b0, b1]
                    ++ (b2 :: b3 :: v' ++ (encTags ts ++ post)))
                    (pre.length + 3) (pre.length + 3 + 2) [7, 108]
                  = (pre ++ (t.1 :: u16le t.2.length)) ++ [7, 108]
                      ++ (b2 :: b3 :: v' ++ (encTags ts ++ post)) := by
                have h := spliceAssign_append (pre ++ (t.1 :: u16le t.2.length)) [b0, b1]
                  (b2 :: b3 :: v' ++ (encTags ts ++ post)) [7, 108]
                rw [hAlen] at h
                exact h
              rw [hsplit2, hsp2]
              have hd1len : ((pre ++ (t.1 :: u16le t.2.length)) ++ [7, 108]
                    ++ (b2 :: b3 :: v' ++ (encTags ts ++ post))).length
                  = pre.length + 3 + t.2.length + (encTags ts).length + post.length := by
                simp [u16le, hvdec]
                omega
              rw [if_pos (by rw [hd1len]; omega)]
              -- second write: month byte
              have hset1 : ((pre ++ (t.1 :: u16le t.2.length)) ++ [7, 108]
                    ++ (b2 :: b3 :: v' ++ (encTags ts ++ post))).set (pre.length + 3 + 2) 1
                  = (pre ++ (t.1 :: u16le t.2.length)) ++ [7, 108]
                      ++ (1 :: b3 :: v' ++ (encTags ts ++ post)) := by
                have h5 : pre.length + 3 + 2
                    = ((pre ++ (t.1 :: u16le t.2.length)) ++ [7, 108]).length + 0 := by
                  rw [List.length_append, hAlen]
                  simp
                rw [h5, set_append_shift]
                simp
              rw [hset1]
              have hd2len : ((pre ++ (t.1 :: u16le t.2.length)) ++ [7, 108]
                    ++ (1 :: b3 :: v' ++ (encTags ts ++ post))).length
                  = pre.length + 3 + t.2.length + (encTags ts).length + post.length := by
                simp [u16le, hvdec]
                omega
              rw [if_pos (by rw [hd2len]; omega)]
              -- third write: day byte
              have hset2 : ((pre ++ (t.1 :: u16le t.2.length)) ++ [7, 108]
                    ++ (1 :: b3 :: v' ++ (encTags ts ++ post))).set (pre.length + 3 + 3) 1
                  = (pre ++ (t.1 :: u16le t.2.length)) ++ [7, 108, 1, 1]
                      ++ (v' ++ (encTags ts ++ post)) := by
                have h5 : pre.length + 3 + 3
                    = ((pre ++ (t.1 :: u16le t.2.length)) ++ [7, 108, 1]).length + 0 := by
                  rw [List.length_append, hAlen]
                  simp
                rw [show (pre ++ (t.1 :: u16le t.2.length)) ++ [7, 108]
                      ++ (1 :: b3 :: v' ++ (encTags ts ++ post))
                    = (pre ++ (t.1 :: u16le t.2.length)) ++ [7, 108, 1]
                      ++ (b3 :: v' ++ (encTags ts ++ post)) by simp]
                rw [h5, set_append_shift]
                simp
              rw [hset2]
              have hbuf : (pre ++ (t.1 :: u16le t.2.length)) ++ [7, 108, 1, 1]
                    ++ (v' ++ (encTags ts ++ post))
                  = (pre ++ encTag (redactTag anonId t)) ++ encTags ts ++ post := by
                rw [encTag_redactTag, redactValue_id10 anonId t.1 t.2 h10 h4, hvdec]
                simp
              rw [hbuf]
              rw [show pre.length + 3 + t.2.length = (pre ++ encTag (redactTag anonId t)).length
                from hplen.symm, hend]
              rw [anonTags_encode anonId ts fuel (pre ++ encTag (redactTag anonId t)) post
                hwf' hfuel']
              exact encode_finish anonId t ts pre post
            · rw [if_neg h4]
              have hred : encTag (redactTag anonId t) = encTag t := by
                rw [encTag_redactTag,
                  redactValue_other anonId t.1 t.2 h2 h69 (fun hc => h4 hc.2), encTag_decomp]
              have hskip : pre ++ encTags (t :: ts) ++ post
                  = (pre ++ encTag (redactTag anonId t)) ++ encTags ts ++ post := by
                rw [encTags_cons, hred]
                simp
              rw [hskip]
              rw [show pre.length + 3 + t.2.length = (pre ++ encTag (redactTag anonId t)).length
                from hplen.symm, hend]
              rw [anonTags_encode anonId ts fuel (pre ++ encTag (redactTag anonId t)) post
                hwf' hfuel']
              exact encode_finish anonId t ts pre post
          · rw [if_neg h10]
            have hred : encTag (redactTag anonId t) = encTag t := by
              rw [encTag_redactTag,
                redactValue_other anonId t.1 t.2 h2 h69 (fun hc => h10 hc.1), encTag_decomp]
            have hskip : pre ++ encTags (t :: ts) ++ post
                = (pre ++ encTag (redactTag anonId t)) ++ encTags ts ++ post := by
              rw [encTags_cons, hred]
              simp
            rw [hskip]
            rw [show pre.length + 3 + t.2.length = (pre ++ encTag (redactTag anonId t)).length
              from hplen.symm, hend]
            rw [anonTags_encode anonId ts fuel (pre ++ encTag (redactTag anonId t)) post
              hwf' hfuel']
            exact encode_finish anonId t ts pre post

lemma length_encTags_redact (anonId : List Nat) (ts : List (Nat × List Nat)) :
    (encTags (ts.map (redactTag anonId))).length = (encTags ts).length := by
  induction ts with
  | nil => rfl
  | cons t ts ih =>
    rw [List.map_cons, encTags_cons, encTags_cons]
    simp only [List.length_append, length_encTag_redact, ih]

/-- `_anonymize_section_1_tags` on a buffer whose addressed region is a
well-formed encoded tag list rewrites exactly the tag values. -/
lemma anonymizeSection1Tags_encode (anonId : List Nat) (ts : List (Nat × List Nat))
    (pre post : List Nat) (hwf : ∀ t ∈ ts, wfTag t) :
    anonymizeSection1Tags anonId (pre ++ encTags ts ++ post) pre.length
        (((encTags ts).length : Nat) : Int)
      = pre ++ encTags (ts.map (redactTag anonId)) ++ post := by
  unfold anonymizeSection1Tags
  have htot : (pre ++ encTags ts ++ post).length
      = pre.length + (encTags ts).length + post.length := by
    simp
    omega
  have hmin : min ((pre.length : Int) + ((encTags ts).length : Nat))
      (((pre ++ encTags ts ++ post).length : Nat) : Int)
      = ((pre.length + (encTags ts).length : Nat) : Int) := by
    rw [htot]
    push_cast
    omega
  rw [hmin]
  refine anonTags_encode anonId ts _ pre post hwf ?_
  have h1 := tsLength_le_encTags ts
  rw [htot]
  omega

/-- The Section 1 locator of the anonymizer, applied to a file whose
first section is a well-formed Section 1: it finds the section at offset
6 and redacts its tag region, leaving everything else untouched. -/
lemma anonymizeSection1_sec1File (anonId : List Nat) (ts : List (Nat × List Nat))
    (ver prot : Nat) (post : List Nat) (hwf : ∀ t ∈ ts, wfTag t)
    (hlen : 3 ≤ (encTags ts).length + post.length)
    (hsz : 8 + (encTags ts).length < 4294967296) :
    anonymizeSection1 anonId (sec1File ts ver prot post)
      = sec1File (ts.map (redactTag anonId)) ver prot post := by
  set sz := 8 + (encTags ts).length with hszdef
  have hform : sec1File ts ver prot post
      = List.replicate 6 0 ++ ([1, 0] ++ (u32le sz ++ ([ver, prot] ++ (encTags ts ++ post)))) := by
    simp [sec1File]
  have hlen0 : (sec1File ts ver prot post).length
      = 14 + (encTags ts).length + post.length := by
    rw [hform]
    simp [u32le]
    omega
  have hsid : readerHeaderId (sec1File ts ver prot post) 6 = 1 := by
    unfold readerHeaderId
    have h := readU16le_shift (List.replicate 6 0)
      ([1, 0] ++ (u32le sz ++ ([ver, prot] ++ (encTags ts ++ post)))) 0
    rw [show (List.replicate 6 0 : List Nat).length + 0 = 6 by simp] at h
    rw [hform, h]
    show readU16le (u16le 1 ++ (u32le sz ++ ([ver, prot] ++ (encTags ts ++ post)))) 0 = 1
    exact readU16le_u16le 1 _ (by norm_num)
  have hssize : readerHeaderSize (sec1File ts ver prot post) 6 = sz := by
    unfold readerHeaderSize
    have hform2 : sec1File ts ver prot post
        = (List.replicate 6 0 ++ [1, 0]) ++ (u32le sz ++ ([ver, prot] ++ (encTags ts ++ post))) := by
      rw [hform]
      simp
    have h := readU32le_shift (List.replicate 6 0 ++ [1, 0])
      (u32le sz ++ ([ver, prot] ++ (encTags ts ++ post))) 0
    rw [show (List.replicate 6 0 ++ [1, 0] : List Nat).length + 0 = 6 + 2 by simp] at h
    rw [hform2, h]
    exact readU32le_u32le sz _ hsz
  unfold anonymizeSection1
  unfold anonS1Loop
  rw [if_pos (by rw [hlen0]; push_cast; omega)]
  dsimp only
  rw [hsid, hssize, if_pos (And.intro rfl (by rw [hlen0]; omega))]
  have hpre : sec1File ts ver prot post
      = (List.replicate 6 0 ++ [1, 0] ++ u32le sz ++ [ver, prot]) ++ encTags ts ++ post := by
    simp [sec1File]
  have hpre14 : (List.replicate 6 0 ++ [1, 0] ++ u32le sz ++ [ver, prot]).length = 14 := by
    simp [u32le]
  have hlenparam : ((sz : Int) - 8) = (((encTags ts).length : Nat) : Int) := by
    rw [hszdef]
    push_cast
    omega
  rw [hlenparam]
  have happly := anonymizeSection1Tags_encode anonId ts
    (List.replicate 6 0 ++ [1, 0] ++ u32le sz ++ [ver, prot]) post hwf
  rw [hpre14] at happly
  rw [show (6 + 8 : Nat) = 14 from rfl, hpre, happly]
  rw [sec1File, length_encTags_redact, ← hszdef]

/-- When a pattern does not occur in the buffer, one pass of
`find_and_replace_text` is the identity; folded over the id list, the
whole file-wide replacement phase is the identity. -/
lemma foldl_far_id (anonId : List Nat) :
    ∀ (l : List (List Nat)) (acc : List Nat),
      (∀ oid ∈ l, listFind acc oid 0 = none ∧ listFind acc (utf16Of oid) 0 = none) →
      l.foldl (fun acc oid =>
        findAndReplaceText (utf16Of oid) (utf16Of anonId)
          (findAndReplaceText oid anonId acc)) acc = acc
  | [], _, _ => rfl
  | oid :: t, acc, h => by
    rw [List.foldl_cons]
    have h0 := h oid (List.mem_cons_self oid t)
    rw [findAndReplaceText_of_not_found _ _ _ h0.1, findAndReplaceText_of_not_found _ _ _ h0.2]
    exact foldl_far_id anonId t acc (fun oid ho => h oid (List.mem_cons_of_mem _ ho))

/-- If none of the hardcoded search patterns occurs in the buffer, the
whole of `anonymize_patient_data` reduces to the Section 1 redaction. -/
lemma anonymizePatientData_no_patterns (anonId d : List Nat)
    (hpat : ∀ pat ∈ searchPatterns, listFind d pat 0 = none) :
    anonymizePatientData anonId d = anonymizeSection1 anonId d := by
  unfold anonymizePatientData
  dsimp only
  have hfold : idList.foldl (fun acc oid =>
      findAndReplaceText (utf16Of oid) (utf16Of anonId)
        (findAndReplaceText oid anonId acc)) d = d := by
    refine foldl_far_id anonId idList d (fun oid ho => ⟨?_, ?_⟩)
    · refine hpat oid ?_
      unfold searchPatterns
      exact List.mem_append_left _ (List.mem_append_left _ ho)
    · refine hpat (utf16Of oid) ?_
      unfold searchPatterns
      exact List.mem_append_left _ (List.mem_append_right _ (List.mem_map_of_mem utf16Of ho))
  rw [hfold]
  have htest : listFind d testBytes 0 = none := by
    refine hpat testBytes ?_
    unfold searchPatterns
    exact List.mem_append_right _ (List.mem_singleton_self _)
  rw [findAndReplaceText_of_not_found _ _ _ htest]

/-! ### Reader walk lemmas -/

lemma getD_drop_add (d : List Nat) (B k : Nat) :
    (d.drop B).getD k 0 = d.getD (B + k) 0 := by
  rcases Nat.lt_or_ge (B + k) d.length with h | h
  · rw [List.getD_eq_getElem d 0 h, List.getD_eq_getElem (d.drop B) 0 (by simp; omega)]
    exact List.getElem_drop ..
  · rw [List.getD_eq_default d 0 h, List.getD_eq_default (d.drop B) 0 (by simp; omega)]

lemma getD_drop_agree (d1 d2 : List Nat) (B : Nat) (hsuf : d1.drop B = d2.drop B)
    (i : Nat) (hi : B ≤ i) : d1.getD i 0 = d2.getD i 0 := by
  rw [show i = B + (i - B) by omega, ← getD_drop_add, ← getD_drop_add, hsuf]

lemma readerHeaderId_agree (d1 d2 : List Nat) (B : Nat) (hsuf : d1.drop B = d2.drop B)
    (p : Nat) (hp : B ≤ p) : readerHeaderId d1 p = readerHeaderId d2 p := by
  unfold readerHeaderId readU16le
  rw [getD_drop_agree d1 d2 B hsuf p hp, getD_drop_agree d1 d2 B hsuf (p + 1) (by omega)]

lemma readerHeaderSize_agree (d1 d2 : List Nat) (B : Nat) (hsuf : d1.drop B = d2.drop B)
    (p : Nat) (hp : B ≤ p) : readerHeaderSize d1 p = readerHeaderSize d2 p := by
  unfold readerHeaderSize readU32le
  rw [getD_drop_agree d1 d2 B hsuf (p + 2) (by omega),
    getD_drop_agree d1 d2 B hsuf (p + 2 + 1) (by omega),
    getD_drop_agree d1 d2 B hsuf (p + 2 + 2) (by omega),
    getD_drop_agree d1 d2 B hsuf (p + 2 + 3) (by omega)]

/-- Two buffers of equal length that agree from position `B` on are walked
identically by the Reader's section loop from any pointer at or past `B`. -/
lemma goSections_agree (d1 d2 : List Nat) (B : Nat) (hlen : d1.length = d2.length)
    (hsuf : d1.drop B = d2.drop B) :
    ∀ (fuel p : Nat), B ≤ p → goSections d1 fuel p = goSections d2 fuel p
  | 0, _, _ => rfl
  | fuel + 1, p, hp => by
    unfold goSections
    dsimp only
    rw [readerHeaderId_agree d1 d2 B hsuf p hp, readerHeaderSize_agree d1 d2 B hsuf p hp, hlen]
    split
    · split
      · rfl
      · rw [goSections_agree d1 d2 B hlen hsuf fuel (p + readerHeaderSize d2 p) (by omega)]
    · rfl

/-- Every section the Reader's walk yields starts at or after the pointer
the walk started from. -/
lemma goSections_entry_ge (d : List Nat) :
    ∀ (fuel p : Nat) (l : List (Nat × Nat × Nat)), goSections d fuel p = some l →
      ∀ e ∈ l, p ≤ e.2.1
  | 0, p, l, h => by simp [goSections] at h
  | fuel + 1, p, l, h => by
    unfold goSections at h
    dsimp only at h
    split at h
    · split at h
      · cases h
        intro e he
        cases he
      · rename_i hne
        cases hgo : goSections d fuel (p + readerHeaderSize d p) with
        | none => rw [hgo] at h; cases h
        | some rest =>
          rw [hgo] at h
          cases h
          intro e he
          rcases List.mem_cons.mp he with he | he
          · rw [he]
          · have := goSections_entry_ge d fuel (p + readerHeaderSize d p) rest hgo e he
            omega
    · cases h
      intro e he
      cases he

lemma getLast?_mem {α : Type} (l : List α) (e : α) (h : l.getLast? = some e) : e ∈ l := by
  have hm : e ∈ l.getLast? := by rw [h]; rfl
  obtain ⟨hne, he⟩ := List.mem_getLast?_eq_getLast hm
  rw [he]
  exact List.getLast_mem hne

lemma lookupLastSection_mem (sid : Nat) (secs : List (Nat × Nat × Nat)) (e : Nat × Nat × Nat)
    (h : lookupLastSection sid secs = some e) : e ∈ secs ∧ e.1 = sid := by
  unfold lookupLastSection at h
  have hmem := getLast?_mem _ _ h
  refine ⟨List.mem_of_mem_filter hmem, ?_⟩
  have := List.of_mem_filter hmem
  exact eq_of_beq this

lemma lookupLastSection_cons_ne (sid : Nat) (x : Nat × Nat × Nat)
    (secs : List (Nat × Nat × Nat)) (hx : (x.1 == sid) = false) :
    lookupLastSection sid (x :: secs) = lookupLastSection sid secs := by
  unfold lookupLastSection
  rw [List.filter_cons_of_neg (by simp [hx])]

lemma slice_agree (d1 d2 : List Nat) (B a b : Nat) (hsuf : d1.drop B = d2.drop B)
    (ha : B ≤ a) : slice d1 a b = slice d2 a b := by
  unfold slice
  rw [List.drop_take, List.drop_take]
  rw [show a = B + (a - B) by omega, ← List.drop_drop, ← List.drop_drop, hsuf]

/-! ### Section walk over a `sec1File` -/

lemma sec1File_length (ts : List (Nat × List Nat)) (ver prot : Nat) (post : List Nat) :
    (sec1File ts ver prot post).length = 14 + (encTags ts).length + post.length := by
  simp [sec1File, u32le]
  omega

lemma sec1File_headerId (ts : List (Nat × List Nat)) (ver prot : Nat) (post : List Nat) :
    readerHeaderId (sec1File ts ver prot post) 6 = 1 := by
  unfold readerHeaderId
  have hform : sec1File ts ver prot post
      = List.replicate 6 0 ++ ([1, 0] ++ (u32le (8 + (encTags ts).length)
          ++ ([ver, prot] ++ (encTags ts ++ post)))) := by
    simp [sec1File]
  have h := readU16le_shift (List.replicate 6 0)
    ([1, 0] ++ (u32le (8 + (encTags ts).length) ++ ([ver, prot] ++ (encTags ts ++ post)))) 0
  rw [show (List.replicate 6 0 : List Nat).length + 0 = 6 by simp] at h
  rw [hform, h]
  show readU16le (u16le 1 ++ (u32le (8 + (encTags ts).length)
    ++ ([ver, prot] ++ (encTags ts ++ post)))) 0 = 1
  exact readU16le_u16le 1 _ (by norm_num)

lemma sec1File_headerSize (ts : List (Nat × List Nat)) (ver prot : Nat) (post : List Nat)
    (hsz : 8 + (encTags ts).length < 4294967296) :
    readerHeaderSize (sec1File ts ver prot post) 6 = 8 + (encTags ts).length := by
  unfold readerHeaderSize
  have hform2 : sec1File ts ver prot post
      = (List.replicate 6 0 ++ [1, 0]) ++ (u32le (8 + (encTags ts).length)
          ++ ([ver, prot] ++ (encTags ts ++ post))) := by
    simp [sec1File]
  have h := readU32le_shift (List.replicate 6 0 ++ [1, 0])
    (u32le (8 + (encTags ts).length) ++ ([ver, prot] ++ (encTags ts ++ post))) 0
  rw [show (List.replicate 6 0 ++ [1, 0] : List Nat).length + 0 = 6 + 2 by simp] at h
  rw [hform2, h]
  exact readU32le_u32le _ _ hsz

lemma sec1File_drop (ts : List (Nat × List Nat)) (ver prot : Nat) (post : List Nat) :
    (sec1File ts ver prot post).drop (14 + (encTags ts).length) = post := by
  have hform : sec1File ts ver prot post
      = (List.replicate 6 0 ++ [1, 0] ++ u32le (8 + (encTags ts).length)
          ++ [ver, prot] ++ encTags ts) ++ post := by
    simp [sec1File]
  have hplen : (List.replicate 6 0 ++ [1, 0] ++ u32le (8 + (encTags ts).length)
      ++ [ver, prot] ++ encTags ts).length = 14 + (encTags ts).length := by
    simp [u32le]
    omega
  rw [hform, ← hplen, List.drop_left]

/-- One step of the Reader's walk on a `sec1File`: the Section 1 header is
read, and the walk continues right after the section. -/
lemma parseSections_sec1File (ts : List (Nat × List Nat)) (ver prot : Nat) (post : List Nat)
    (hlen : 3 ≤ (encTags ts).length + post.length)
    (hsz : 8 + (encTags ts).length < 4294967296) :
    parseSections (sec1File ts ver prot post)
      = (goSections (sec1File ts ver prot post) ((sec1File ts ver prot post).length)
          (14 + (encTags ts).length)).map
          (fun rest => (1, 6, 8 + (encTags ts).length) :: rest) := by
  cases hgo : goSections (sec1File ts ver prot post) ((sec1File ts ver prot post).length)
      (14 + (encTags ts).length) with
  | none =>
    unfold parseSections goSections
    dsimp only
    rw [sec1File_headerId ts ver prot post, sec1File_headerSize ts ver prot post hsz]
    rw [if_pos (by rw [sec1File_length]; push_cast; omega)]
    rw [if_neg (by norm_num)]
    rw [show 6 + (8 + (encTags ts).length) = 14 + (encTags ts).length by omega, hgo]
    rfl
  | some rest =>
    unfold parseSections goSections
    dsimp only
    rw [sec1File_headerId ts ver prot post, sec1File_headerSize ts ver prot post hsz]
    rw [if_pos (by rw [sec1File_length]; push_cast; omega)]
    rw [if_neg (by norm_num)]
    rw [show 6 + (8 + (encTags ts).length) = 14 + (encTags ts).length by omega, hgo]
    rfl

/-- Redacting the Section 1 tag region does not change what the Reader's
section walk yields. -/
lemma parseSections_redact_eq (anonId : List Nat) (ts : List (Nat × List Nat))
    (ver prot : Nat) (post : List Nat)
    (hlen : 3 ≤ (encTags ts).length + post.length)
    (hsz : 8 + (encTags ts).length < 4294967296) :
    parseSections (sec1File (ts.map (redactTag anonId)) ver prot post)
      = parseSections (sec1File ts ver prot post) := by
  have hEL := length_encTags_redact anonId ts
  have hlen2 : 3 ≤ (encTags (ts.map (redactTag anonId))).length + post.length := by
    rw [hEL]; exact hlen
  have hsz2 : 8 + (encTags (ts.map (redactTag anonId))).length < 4294967296 := by
    rw [hEL]; exact hsz
  rw [parseSections_sec1File ts ver prot post hlen hsz,
    parseSections_sec1File (ts.map (redactTag anonId)) ver prot post hlen2 hsz2]
  have hlens : (sec1File (ts.map (redactTag anonId)) ver prot post).length
      = (sec1File ts ver prot post).length := by
    rw [sec1File_length, sec1File_length, hEL]
  have hsuf : (sec1File (ts.map (redactTag anonId)) ver prot post).drop
        (14 + (encTags ts).length)
      = (sec1File ts ver prot post).drop (14 + (encTags ts).length) := by
    rw [sec1File_drop ts ver prot post, ← hEL, sec1File_drop]
  rw [hEL, hlens]
  rw [goSections_agree (sec1File (ts.map (redactTag anonId)) ver prot post)
    (sec1File ts ver prot post) (14 + (encTags ts).length) hlens hsuf
    ((sec1File ts ver prot post).length) (14 + (encTags ts).length) (Nat.le_refl _)]

/-- Redacting the Section 1 tag region does not change the waveform the
Reader recovers. -/
lemma readerWaveform_redact_eq (anonId : List Nat) (ts : List (Nat × List Nat))
    (ver prot : Nat) (post : List Nat)
    (hlen : 3 ≤ (encTags ts).length + post.length)
    (hsz : 8 + (encTags ts).length < 4294967296) :
    readerWaveform (sec1File (ts.map (redactTag anonId)) ver prot post)
      = readerWaveform (sec1File ts ver prot post) := by
  have hEL := length_encTags_redact anonId ts
  have hsuf : (sec1File (ts.map (redactTag anonId)) ver prot post).drop
        (14 + (encTags ts).length)
      = (sec1File ts ver prot post).drop (14 + (encTags ts).length) := by
    rw [sec1File_drop ts ver prot post, ← hEL, sec1File_drop]
  unfold readerWaveform
  rw [parseSections_redact_eq anonId ts ver prot post hlen hsz]
  cases hps : parseSections (sec1File ts ver prot post) with
  | none => rfl
  | some secs =>
    rw [Option.some_bind, Option.some_bind]
    cases hlk : lookupLastSection 6 secs with
    | none => rfl
    | some e =>
      rw [Option.some_bind, Option.some_bind]
      have hge : 14 + (encTags ts).length ≤ e.2.1 := by
        rw [parseSections_sec1File ts ver prot post hlen hsz] at hps
        cases hgo : goSections (sec1File ts ver prot post)
            ((sec1File ts ver prot post).length) (14 + (encTags ts).length) with
        | none => rw [hgo] at hps; cases hps
        | some rest =>
          rw [hgo] at hps
          simp only [Option.map_some'] at hps
          cases hps
          rw [lookupLastSection_cons_ne 6 (1, 6, 8 + (encTags ts).length) rest
            (by norm_num)] at hlk
          obtain ⟨hmem, _⟩ := lookupLastSection_mem 6 rest e hlk
          exact goSections_entry_ge (sec1File ts ver prot post) _ _ rest hgo e hmem
      rw [slice_agree _ _ (14 + (encTags ts).length) (e.2.1 + 8) (e.2.1 + e.2.2) hsuf
        (by omega)]

/-! ### Finalization lemmas (file size and CRC) -/

lemma exists_cons2 (m : List Nat) (h : 6 ≤ m.length) :
    ∃ a b r, m = a :: b :: r ∧ 4 ≤ r.length := by
  match m, h with
  | [], h => simp at h
  | [a], h => simp at h
  | a :: b :: r, h =>
    refine ⟨a, b, r, rfl, ?_⟩
    simp at h
    omega

lemma updateFileSize_eq (a b : Nat) (r : List Nat) (hr : 4 ≤ r.length) :
    updateFileSize (a :: b :: r) = a :: b :: (u32le (r.length + 2) ++ r.drop 4) := by
  unfold updateFileSize spliceAssign
  have h1 : min 2 (a :: b :: r).length = 2 := by simp
  have h2 : min 6 (a :: b :: r).length = 6 := by simp; omega
  rw [h1, h2]
  have hmax : max 2 6 = 6 := by norm_num
  rw [hmax]
  have htake : (a :: b :: r).take 2 = [a, b] := by simp
  have hdrop : (a :: b :: r).drop 6 = r.drop 4 := by
    show ((a :: b :: r).drop 2).drop 4 = r.drop 4
    rfl
  rw [htake, hdrop]
  simp

lemma updateCrc_eq (a b : Nat) (r : List Nat) :
    updateCrc (a :: b :: r) = u16le (crc16 r) ++ r := by
  unfold updateCrc spliceAssign
  have h0 : min 0 (a :: b :: r).length = 0 := by simp
  have h2 : min 2 (a :: b :: r).length = 2 := by simp
  rw [h0, h2]
  simp

lemma anonTagsLoop_exit (anonId : List Nat) (fuel : Nat) (d : List Nat) (p : Nat) (endI : Int)
    (h : ¬ (p : Int) < endI - 3) : anonTagsLoop anonId fuel d p endI = d := by
  cases fuel with
  | zero => rfl
  | succ fuel =>
    unfold anonTagsLoop
    rw [if_neg h]

/-! ### Concrete inputs for the claims -/

/-- A 32-byte file whose only section is a Section 6 (raw mode, one lead,
two samples) whose sample bytes spell the ASCII text `test`. -/
def c1buf : List Nat :=
  [0, 0, 0, 0, 0, 0, 6, 0, 26, 0, 0, 0, 0, 0,
   0, 0, 208, 7, 0, 0, 1, 0, 2, 0, 2, 0, 0, 0, 116, 101, 115, 116]

/-- Tag list for the C1 witness: a patient id `XYZ` and a last name
`Smith`. -/
def c1ts : List (Nat × List Nat) := [(2, [88, 89, 90]), (8, [83, 109, 105, 116, 104])]

/-- Trailing bytes for the C1 witness: a Section 6 in raw mode with one
lead and the two samples 10 and 20. -/
def c1post : List Nat :=
  [6, 0, 26, 0, 0, 0, 0, 0] ++ [0, 0, 208, 7, 0, 0, 1, 0, 2, 0, 2, 0, 0, 0, 10, 0, 20, 0]

/-- A five-byte buffer: `anonymize` completes on it, but the finalized
header is not self-consistent. -/
def c2cex : List Nat := [0, 0, 0, 0, 0]

/-- Same bytes as `c1buf`; used to compare the Reader's and the Verifier's
header decodings on one concrete file. -/
def c3buf : List Nat :=
  [0, 0, 0, 0, 0, 0, 6, 0, 26, 0, 0, 0, 0, 0,
   0, 0, 208, 7, 0, 0, 1, 0, 2, 0, 2, 0, 0, 0, 116, 101, 115, 116]

/-- A 17-byte buffer whose section header at offset 6 has id 1 and
declared size 0. -/
def c4buf : List Nat := [0, 0, 0, 0, 0, 0, 1, 0, 0, 0, 0, 0, 0, 0, 0, 0, 0]

/-- A file whose Section 1 holds tag 0 (a name-format tag) with the value
`Smith`, followed by the terminator tag. -/
def c5buf : List Nat :=
  [0, 0, 0, 0, 0, 0] ++ [1, 0] ++ u32le 17 ++ [0, 0] ++
    [0, 5, 0] ++ [83, 109, 105, 116, 104] ++ [255]

/-- A file whose Section 1 tag 2 holds the patient id `55667788`, with a
second occurrence of the same id after the section. -/
def c6buf : List Nat :=
  [0, 0, 0, 0, 0, 0] ++ [1, 0] ++ u32le 19 ++ [0, 0] ++
    [2, 8, 0] ++ [53, 53, 54, 54, 55, 55, 56, 56] ++ [53, 53, 54, 54, 55, 55, 56, 56]

/-- A buffer containing the hardcoded sample id `123456789` with no
well-formed section table. -/
def c6listbuf : List Nat := [0, 0, 0, 0, 0, 0] ++ [49, 50, 51, 52, 53, 54, 55, 56, 57]

/-- A file whose Section 1 holds the acquisition date tag 25 with the
value 2023-05-20. -/
def c7buf : List Nat :=
  [0, 0, 0, 0, 0, 0] ++ [1, 0] ++ u32le 15 ++ [0, 0] ++ [25, 4, 0, 7, 231, 5, 20]

/-- A file whose Section 1 holds the physician tag 21 (`DrX`) and the
technician tag 22 (`Tech`). -/
def c8buf : List Nat :=
  [0, 0, 0, 0, 0, 0] ++ [1, 0] ++ u32le 21 ++ [0, 0] ++
    [21, 3, 0, 68, 114, 88] ++ [22, 4, 0, 84, 101, 99, 104]

/-- A Section 6 payload in delta mode: one lead, three samples, reference
100, deltas 5 and -10. -/
def c9buf : List Nat := [0, 0, 208, 7, 0, 1, 1, 0, 2, 0, 3, 0, 0, 0, 100, 0, 5, 246]

/-! ### Claim C1 -/

/-- C1, counterexample.  The claim says `anonymize` never modifies a byte
inside the byte ranges of Section 3 or Section 6 and that the waveform
parsed from the anonymized output equals the original.  On `c1buf` the
Reader's walk locates Section 6 as the byte range `[6, 32)`, yet
`anonymize_patient_data` rewrites byte 28 (the file-wide `test → ANON`
replacement hits the sample bytes), and the decoded waveform changes. -/
theorem c1_counterexample :
    parseSections c1buf = some [(6, 6, 26)]
    ∧ (anonymizePatientData defaultAnonId c1buf).getD 28 0 ≠ c1buf.getD 28 0
    ∧ readerWaveform c1buf = some (500, 1, [[25972, 29811]])
    ∧ readerWaveform (anonymizePatientData defaultAnonId c1buf) ≠ readerWaveform c1buf := by
  refine ⟨by decide, by decide, by decide, by decide⟩

/-- C1, amended.  On a file whose first section is a well-formed Section 1
and in which none of the hardcoded search patterns occurs,
`anonymize_patient_data` rewrites exactly the Section 1 tag values: the
bytes after the Section 1 region (holding Sections 3 and 6) are returned
unchanged, the Reader's section walk is unchanged, and the waveform the
Reader recovers from the anonymized file equals the original one. -/
theorem c1_amended (anonId : List Nat) (ts : List (Nat × List Nat)) (ver prot : Nat)
    (post : List Nat) (hwf : ∀ t ∈ ts, wfTag t)
    (hlen : 3 ≤ (encTags ts).length + post.length)
    (hsz : 8 + (encTags ts).length < 4294967296)
    (hpat : ∀ pat ∈ searchPatterns, listFind (sec1File ts ver prot post) pat 0 = none) :
    anonymizePatientData anonId (sec1File ts ver prot post)
        = sec1File (ts.map (redactTag anonId)) ver prot post
    ∧ (anonymizePatientData anonId (sec1File ts ver prot post)).drop
        (14 + (encTags ts).length) = post
    ∧ parseSections (anonymizePatientData anonId (sec1File ts ver prot post))
        = parseSections (sec1File ts ver prot post)
    ∧ readerWaveform (anonymizePatientData anonId (sec1File ts ver prot post))
        = readerWaveform (sec1File ts ver prot post) := by
  have h1 : anonymizePatientData anonId (sec1File ts ver prot post)
      = sec1File (ts.map (redactTag anonId)) ver prot post := by
    rw [anonymizePatientData_no_patterns anonId _ hpat]
    exact anonymizeSection1_sec1File anonId ts ver prot post hwf hlen hsz
  refine ⟨h1, ?_, ?_, ?_⟩
  · rw [h1, show 14 + (encTags ts).length
      = 14 + (encTags (ts.map (redactTag anonId))).length by rw [length_encTags_redact],
      sec1File_drop]
  · rw [h1]
    exact parseSections_redact_eq anonId ts ver prot post hlen hsz
  · rw [h1]
    exact readerWaveform_redact_eq anonId ts ver prot post hlen hsz

/-- C1, witness: the amended statement at a concrete file whose Section 1
holds a patient id and a name and whose Section 6 carries two raw
samples. -/
theorem c1_witness :
    anonymizePatientData defaultAnonId (sec1File c1ts 0 0 c1post)
        = sec1File (c1ts.map (redactTag defaultAnonId)) 0 0 c1post
    ∧ (anonymizePatientData defaultAnonId (sec1File c1ts 0 0 c1post)).drop
        (14 + (encTags c1ts).length) = c1post
    ∧ parseSections (anonymizePatientData defaultAnonId (sec1File c1ts 0 0 c1post))
        = parseSections (sec1File c1ts 0 0 c1post)
    ∧ readerWaveform (anonymizePatientData defaultAnonId (sec1File c1ts 0 0 c1post))
        = readerWaveform (sec1File c1ts 0 0 c1post) :=
  c1_amended defaultAnonId c1ts 0 0 c1post (by decide) (by decide) (by decide) (by decide)

/-! ### Claim C2 -/

/-- C2, counterexample.  `anonymize` completes on the five-byte buffer
`c2cex`, but the file-size field of the finalized output does not equal
the output length: the size splice grows the buffer before the size value
is written. -/
theorem c2_counterexample :
    (anonymizeBuffer defaultAnonId c2cex).length
      ≠ readU32le (anonymizeBuffer defaultAnonId c2cex) 2 := by
  decide

/-- C2, amended.  For every `anonymize` call on a buffer at least six
bytes long (whose anonymized form fits the u32 size field), the finalized
output satisfies both header invariants, and the stored CRC is the CRC of
the buffer as it stands after the file-size write, reflecting the
size-then-CRC ordering of `save_anonymized`. -/
theorem c2_amended (anonId d : List Nat) (h6 : 6 ≤ d.length)
    (h32 : (anonymizePatientData anonId d).length < 4294967296) :
    (anonymizeBuffer anonId d).length = readU32le (anonymizeBuffer anonId d) 2
    ∧ readU16le (anonymizeBuffer anonId d) 0 = crc16 ((anonymizeBuffer anonId d).drop 2)
    ∧ readU16le (anonymizeBuffer anonId d) 0
        = crc16 ((updateFileSize (anonymizePatientData anonId d)).drop 2) := by
  have hm6 : 6 ≤ (anonymizePatientData anonId d).length :=
    Nat.le_trans h6 (anonymizePatientData_length_ge anonId d)
  obtain ⟨a, b, r, hm, hr⟩ := exists_cons2 (anonymizePatientData anonId d) hm6
  have hout : anonymizeBuffer anonId d
      = u16le (crc16 (u32le (r.length + 2) ++ r.drop 4)) ++ (u32le (r.length + 2) ++ r.drop 4) := by
    unfold anonymizeBuffer saveAnonymized
    rw [hm, updateFileSize_eq a b r hr, updateCrc_eq]
  have h32r : r.length + 2 < 4294967296 := by
    rw [hm] at h32
    simp at h32
    omega
  refine ⟨?_, ?_, ?_⟩
  · rw [hout]
    have hs := readU32le_shift (u16le (crc16 (u32le (r.length + 2) ++ r.drop 4)))
      (u32le (r.length + 2) ++ r.drop 4) 0
    rw [show (u16le (crc16 (u32le (r.length + 2) ++ r.drop 4))).length + 0 = 2 by
      simp [u16le]] at hs
    rw [hs, readU32le_u32le _ _ h32r]
    simp [u16le, u32le]
    omega
  · rw [hout]
    have hdrop2 : (u16le (crc16 (u32le (r.length + 2) ++ r.drop 4))
        ++ (u32le (r.length + 2) ++ r.drop 4)).drop 2 = u32le (r.length + 2) ++ r.drop 4 := by
      simp [u16le]
    rw [hdrop2]
    exact readU16le_u16le _ _ (crc16_lt _)
  · rw [hout, hm, updateFileSize_eq a b r hr]
    have hdrop2 : (a :: b :: (u32le (r.length + 2) ++ r.drop 4)).drop 2
        = u32le (r.length + 2) ++ r.drop 4 := rfl
    rw [hdrop2]
    exact readU16le_u16le _ _ (crc16_lt _)

/-- C2, witness: the amended statement on the six-byte zero buffer. -/
theorem c2_witness :
    (anonymizeBuffer defaultAnonId (List.replicate 6 0)).length
        = readU32le (anonymizeBuffer defaultAnonId (List.replicate 6 0)) 2
    ∧ readU16le (anonymizeBuffer defaultAnonId (List.replicate 6 0)) 0
        = crc16 ((anonymizeBuffer defaultAnonId (List.replicate 6 0)).drop 2)
    ∧ readU16le (anonymizeBuffer defaultAnonId (List.replicate 6 0)) 0
        = crc16 ((updateFileSize (anonymizePatientData defaultAnonId (List.replicate 6 0))).drop 2) :=
  c2_amended defaultAnonId (List.replicate 6 0) (by decide) (by decide)

/-! ### Claim C3 -/

/-- C3.  The Reader/Anonymizer walks read the section id at the pointer
and the size at `pointer + 2`, while the Verifier's walks read the id at
`pointer + 2` and the size at `pointer + 4`: the Verifier's header read at
`p` is exactly the Reader's header read at `p + 2`.  On the concrete file
`c3buf` the two decodings disagree at the same pointer, the Reader's walk
finds Section 6, and the Verifier's `_find_section` does not. -/
theorem c3_theorem :
    (∀ (d : List Nat) (p : Nat),
      verifierHeaderId d p = readerHeaderId d (p + 2)
      ∧ verifierHeaderSize d p = readerHeaderSize d (p + 2))
    ∧ readerHeaderId c3buf 6 = 6 ∧ verifierHeaderId c3buf 6 = 26
    ∧ readerHeaderSize c3buf 6 = 26 ∧ verifierHeaderSize c3buf 6 = 0
    ∧ readerHeaderId c3buf 6 ≠ verifierHeaderId c3buf 6
    ∧ readerHeaderSize c3buf 6 ≠ verifierHeaderSize c3buf 6
    ∧ parseSections c3buf = some [(6, 6, 26)]
    ∧ verifFindSection c3buf 6 = none := by
  refine ⟨fun d p => ⟨rfl, ?_⟩, by decide, by decide, by decide, by decide, by decide,
    by decide, by decide, by decide⟩
  show readU32le d (p + 4) = readU32le d (p + 2 + 2)
  norm_num

/-! ### Claim C4 -/

/-- The Reader's walk on `c4buf` makes no progress: the declared size at
offset 6 is zero and the pointer stays at 6, so no amount of fuel makes
the loop finish. -/
lemma c4_loop : ∀ fuel : Nat, goSections c4buf fuel 6 = none
  | 0 => rfl
  | fuel + 1 => by
    unfold goSections
    rw [if_pos (by decide)]
    dsimp only
    rw [if_neg (by decide)]
    rw [show 6 + readerHeaderSize c4buf 6 = 6 from by decide]
    rw [c4_loop fuel]

/-- C4.  The claim says the strict Reader's section walk terminates on
every finite buffer, treating a zero declared size as end-of-table.  On
the 17-byte buffer `c4buf` the walk is entered, reads a header with id 1
and size 0, and then loops forever re-reading the same header: the
fuel-indexed embedding exhausts any fuel.  The sibling walks guard this
case (the anonymizer's locator advances by one byte, the Verifier breaks),
so the unguarded `pointer += section_size` in `_parse_sections` is a
slip. -/
theorem c4_theorem :
    (((6 : Int) < (c4buf.length : Int) - 10)
      ∧ readerHeaderId c4buf 6 = 1 ∧ readerHeaderSize c4buf 6 = 0)
    ∧ ∀ fuel : Nat, goSections c4buf fuel 6 = none :=
  ⟨by decide, c4_loop⟩

/-! ### Claim C5 -/

/-- C5, counterexample.  The claim says every name tag with id in
{0, 1, 6, 7, 8, 9} is overwritten with the text `REMOVED` repeated and
truncated.  On `c5buf`, whose Section 1 holds tag 0 = `Smith`, the whole
anonymization pipeline leaves the value untouched; moreover the repetition
unit the code uses is the eight-byte block `REMOVED\x00`, so a length-8
value becomes `REMOVED\x00`, not `REMOVEDR`. -/
theorem c5_counterexample :
    slice (anonymizePatientData defaultAnonId c5buf) 17 22 = [83, 109, 105, 116, 104]
    ∧ removedBytes 5 = [82, 69, 77, 79, 86]
    ∧ slice (anonymizePatientData defaultAnonId c5buf) 17 22 ≠ removedBytes 5
    ∧ removedBytes 8 = [82, 69, 77, 79, 86, 69, 68, 0]
    ∧ removedBytes 8 ≠ [82, 69, 77, 79, 86, 69, 68, 82] := by
  refine ⟨by decide, by decide, by decide, by decide, by decide⟩

/-- C5, amended.  The tag loop overwrites the value of a name tag with id
in {6, 7, 8, 9} and declared length `L` with the eight-byte block
`REMOVED\x00` tiled and truncated to exactly `L` bytes (which equals
`REMOVED` truncated whenever `L ≤ 7`); tags 0 and 1 are not redacted.  In
particular a length-5 value becomes `REMOV` and a length-4 value becomes
`REMO`. -/
theorem c5_amended :
    (∀ (anonId pre post : List Nat) (id : Nat) (v : List Nat),
      (id = 6 ∨ id = 7 ∨ id = 8 ∨ id = 9) → 1 ≤ v.length → v.length < 65536 →
      anonymizeSection1Tags anonId (pre ++ encTags [(id, v)] ++ post) pre.length
          (((encTags [(id, v)]).length : Nat) : Int)
        = pre ++ encTags [(id, removedBytes v.length)] ++ post)
    ∧ (∀ (anonId pre post : List Nat) (id : Nat) (v : List Nat),
      (id = 0 ∨ id = 1) → 1 ≤ v.length → v.length < 65536 →
      anonymizeSection1Tags anonId (pre ++ encTags [(id, v)] ++ post) pre.length
          (((encTags [(id, v)]).length : Nat) : Int)
        = pre ++ encTags [(id, v)] ++ post)
    ∧ removedBytes 5 = [82, 69, 77, 79, 86]
    ∧ removedBytes 4 = [82, 69, 77, 79] := by
  refine ⟨?_, ?_, by decide, by decide⟩
  · intro anonId pre post id v h69 hv1 hv2
    have h2 : ¬ id = 2 := by rcases h69 with h | h | h | h <;> omega
    have hid : id < 255 := by rcases h69 with h | h | h | h <;> omega
    have henc := anonymizeSection1Tags_encode anonId [(id, v)] pre post
      (by intro t ht; rcases List.mem_singleton.mp ht with rfl; exact ⟨hid, hv1, hv2⟩)
    rw [henc]
    rw [show ([(id, v)].map (redactTag anonId)) = [(id, redactValue anonId id v)] from rfl]
    rw [redactValue_names anonId id v h2 h69]
  · intro anonId pre post id v h01 hv1 hv2
    have h2 : ¬ id = 2 := by rcases h01 with h | h <;> omega
    have h69 : ¬ (id = 6 ∨ id = 7 ∨ id = 8 ∨ id = 9) := by rcases h01 with h | h <;> omega
    have h10 : ¬ (id = 10 ∧ 4 ≤ v.length) := by rcases h01 with h | h <;> omega
    have hid : id < 255 := by rcases h01 with h | h <;> omega
    have henc := anonymizeSection1Tags_encode anonId [(id, v)] pre post
      (by intro t ht; rcases List.mem_singleton.mp ht with rfl; exact ⟨hid, hv1, hv2⟩)
    rw [henc]
    rw [show ([(id, v)].map (redactTag anonId)) = [(id, redactValue anonId id v)] from rfl]
    rw [redactValue_other anonId id v h2 h69 h10]

/-- C5, witness: tag 8 = `Smith` becomes `REMOV`, and tag 0 = `Smith` is
left unchanged, inside small concrete buffers. -/
theorem c5_witness :
    anonymizeSection1Tags defaultAnonId
        ([9, 9] ++ encTags [(8, [83, 109, 105, 116, 104])] ++ [7, 7]) 2
        (((encTags [(8, [83, 109, 105, 116, 104])]).length : Nat) : Int)
      = [9, 9] ++ encTags [(8, removedBytes 5)] ++ [7, 7]
    ∧ anonymizeSection1Tags defaultAnonId
        ([9, 9] ++ encTags [(0, [83, 109, 105, 116, 104])] ++ [7, 7]) 2
        (((encTags [(0, [83, 109, 105, 116, 104])]).length : Nat) : Int)
      = [9, 9] ++ encTags [(0, [83, 109, 105, 116, 104])] ++ [7, 7] :=
  ⟨c5_amended.1 defaultAnonId [9, 9] [7, 7] 8 [83, 109, 105, 116, 104]
      (by norm_num) (by decide) (by decide),
    c5_amended.2.1 defaultAnonId [9, 9] [7, 7] 0 [83, 109, 105, 116, 104]
      (by norm_num) (by decide) (by decide)⟩

/-! ### Claim C6 -/

/-- C6, counterexample.  The claim says the anonymizer extracts the actual
tag-2 patient id and replaces every file-wide occurrence of it.  In
`c6buf` the tag-2 value is `55667788`, which also occurs after Section 1;
`anonymize_patient_data` leaves that second occurrence byte-for-byte
intact (it searches only a fixed list of sample ids), while a same-length
overwrite with the anonymous id would have produced `anonBytes`. -/
theorem c6_counterexample :
    slice c6buf 17 25 = [53, 53, 54, 54, 55, 55, 56, 56]
    ∧ slice c6buf 25 33 = [53, 53, 54, 54, 55, 55, 56, 56]
    ∧ slice (anonymizePatientData defaultAnonId c6buf) 25 33
        = [53, 53, 54, 54, 55, 55, 56, 56]
    ∧ slice (anonymizePatientData defaultAnonId c6buf) 25 33
        ≠ anonBytes defaultAnonId 8 := by
  refine ⟨by decide, by decide, by decide, by decide⟩

/-- C6, amended.  Every `find_and_replace_text` pass is a same-length
overwrite (the buffer length never changes), and the file-wide replacement
applies to the fixed list of hardcoded sample ids: the hardcoded id
`123456789` occurring in a buffer is replaced by the anonymous id
truncated to the same length and the buffer is otherwise unchanged. -/
theorem c6_amended :
    (∀ (pat repl d : List Nat), (findAndReplaceText pat repl d).length = d.length)
    ∧ [49, 50, 51, 52, 53, 54, 55, 56, 57] ∈ idList
    ∧ anonymizePatientData defaultAnonId c6listbuf
        = [0, 0, 0, 0, 0, 0, 65, 78, 79, 78, 48, 48, 48, 48, 48] :=
  ⟨fun pat repl d => findAndReplaceText_length pat repl d, by decide, by decide⟩

/-! ### Claim C7 -/

/-- C7.  The claim says the acquisition date tag (25) is overwritten with
the sentinel 2000-01-01 under the default configuration.  The anonymizer
has no `anonymize_datetime` option at all and tag 25 is not in its
sensitive-tag table: on `c7buf` the whole pipeline returns the buffer
unchanged and the tag value stays 2023-05-20 rather than the sentinel
`[7, 208, 1, 1]`. -/
theorem c7_theorem :
    anonymizePatientData defaultAnonId c7buf = c7buf
    ∧ slice c7buf 17 21 = [7, 231, 5, 20]
    ∧ slice c7buf 17 21 ≠ [7, 208, 1, 1] := by
  refine ⟨by decide, by decide, by decide⟩

/-! ### Claim C8 -/

/-- C8.  The claim says every byte of the physician (21) and technician
(22) tag values is zeroed on every `anonymize` call.  Neither tag is in
the anonymizer's sensitive-tag table: on `c8buf` the pipeline returns the
buffer unchanged, and the Verifier's own tag policy classifies both
remaining values as issues. -/
theorem c8_theorem :
    anonymizePatientData defaultAnonId c8buf = c8buf
    ∧ slice c8buf 17 20 = [68, 114, 88]
    ∧ slice c8buf 23 27 = [84, 101, 99, 104]
    ∧ tag2122Issue (slice c8buf 17 20) = true
    ∧ tag2122Issue (slice c8buf 23 27) = true := by
  refine ⟨by decide, by decide, by decide, by decide, by decide⟩

/-! ### Claim C9 -/

/-- C9.  In delta mode, a lead with declared sample count `ns` whose
reference sample and `ns - 1` delta bytes lie inside the buffer decodes to
the 16-bit little-endian reference followed by the running sums of the
signed 8-bit deltas; and the concrete Section 6 payload `c9buf`
(compression flag nonzero, one lead, three samples, reference 100, deltas
5 and -10) parses to the waveform `[100, 105, 95]` at 500 Hz. -/
theorem c9_theorem :
    (∀ (d : List Nat) (ns p : Nat), 1 ≤ ns → p + 2 + (ns - 1) ≤ d.length →
      deltaLead d ns p
        = (List.scanl (· + ·) (s16le (d.getD p 0) (d.getD (p + 1) 0))
            (((d.drop (p + 2)).take (ns - 1)).map s8), p + 2 + (ns - 1)))
    ∧ parseRhythmData c9buf = some (500, 1, [[100, 105, 95]]) :=
  ⟨fun d ns p h1 h2 => deltaLead_spec d ns p h1 h2, by decide⟩

/-- C9, witness: the general delta statement applied to `c9buf` recovers
`[100, 105, 95]`. -/
theorem c9_witness : deltaLead c9buf 3 14 = ([100, 105, 95], 18) := by
  have h := c9_theorem.1 c9buf 3 14 (by decide) (by decide)
  rw [h]
  decide

/-! ### Claim C10 -/

/-- C10.  When every redacted tag's declared value range lies inside the
buffer (a well-formed encoded tag region), the tag loop preserves the
total buffer length; when a tag's declared length `L` runs past the buffer
end, the loop builds the full `L`-byte replacement, assigns it into the
clamped range, and the buffer grows to `value_start + L`. -/
theorem c10_theorem :
    (∀ (anonId : List Nat) (ts : List (Nat × List Nat)) (pre post : List Nat),
      (∀ t ∈ ts, wfTag t) →
      (anonymizeSection1Tags anonId (pre ++ encTags ts ++ post) pre.length
          (((encTags ts).length : Nat) : Int)).length
        = (pre ++ encTags ts ++ post).length)
    ∧ (∀ (anonId pre : List Nat) (L : Nat) (v : List Nat),
      1 ≤ v.length → v.length < L → L < 65536 →
      anonymizeSection1Tags anonId (pre ++ 2 :: u16le L ++ v) pre.length ((3 + L : Nat) : Int)
          = pre ++ 2 :: u16le L ++ anonBytes anonId L
        ∧ (pre ++ 2 :: u16le L ++ anonBytes anonId L).length = pre.length + 3 + L
        ∧ (pre ++ 2 :: u16le L ++ v).length
            < (pre ++ 2 :: u16le L ++ anonBytes anonId L).length) := by
  constructor
  · intro anonId ts pre post hwf
    rw [anonymizeSection1Tags_encode anonId ts pre post hwf]
    simp [length_encTags_redact]
  · intro anonId pre L v hv1 hv2 hL
    have hdlen : (pre ++ 2 :: u16le L ++ v).length = pre.length + 3 + v.length := by
      simp [u16le]
      omega
    have hmain : anonymizeSection1Tags anonId (pre ++ 2 :: u16le L ++ v) pre.length
        ((3 + L : Nat) : Int) = pre ++ 2 :: u16le L ++ anonBytes anonId L := by
      unfold anonymizeSection1Tags
      have hmin : min ((pre.length : Int) + ((3 + L : Nat) : Int))
          (((pre ++ 2 :: u16le L ++ v).length : Nat) : Int)
          = (((pre ++ 2 :: u16le L ++ v).length : Nat) : Int) := by
        rw [hdlen]
        push_cast
        omega
      rw [hmin]
      unfold anonTagsLoop
      rw [if_pos (by rw [hdlen]; push_cast; omega)]
      dsimp only
      have htag : (pre ++ 2 :: u16le L ++ v).getD pre.length 0 = 2 := by
        rw [List.append_assoc]
        have := getD_append_add pre ((2 :: u16le L) ++ v) 0
        simpa using this
      have hLr : readU16le (pre ++ 2 :: u16le L ++ v) (pre.length + 1) = L := by
        have hsh := readU16le_shift (pre ++ [2]) (u16le L ++ v) 0
        rw [show (pre ++ [2] : List Nat).length + 0 = pre.length + 1 by simp] at hsh
        rw [show pre ++ 2 :: u16le L ++ v = (pre ++ [2]) ++ (u16le L ++ v) by simp]
        rw [hsh]
        exact readU16le_u16le L v hL
      rw [htag, if_neg (by omega), hLr, if_pos rfl]
      have hb : min (pre.length + 3 + L) (pre ++ 2 :: u16le L ++ v).length
          = (pre ++ 2 :: u16le L ++ v).length := by
        rw [hdlen]
        omega
      rw [hb]
      have hsplice : spliceAssign (pre ++ 2 :: u16le L ++ v) (pre.length + 3)
          (pre ++ 2 :: u16le L ++ v).length (anonBytes anonId L)
          = pre ++ 2 :: u16le L ++ anonBytes anonId L := by
        unfold spliceAssign
        rw [min_eq_left (by rw [hdlen]; omega), min_self, max_eq_right (by rw [hdlen]; omega)]
        rw [List.drop_length, List.append_nil]
        have htake : (pre ++ 2 :: u16le L ++ v).take (pre.length + 3) = pre ++ 2 :: u16le L := by
          rw [show pre.length + 3 = (pre ++ 2 :: u16le L).length by simp [u16le]]
          exact List.take_left _ _
        rw [htake, List.append_assoc]
      rw [hsplice]
      rw [anonTagsLoop_exit anonId _ _ _ _ (by rw [hdlen]; push_cast; omega)]
    refine ⟨hmain, ?_, ?_⟩
    · rw [show (pre ++ 2 :: u16le L ++ anonBytes anonId L).length
        = pre.length + 3 + (anonBytes anonId L).length by simp [u16le]; omega,
        length_anonBytes]
    · rw [hdlen, show (pre ++ 2 :: u16le L ++ anonBytes anonId L).length
        = pre.length + 3 + (anonBytes anonId L).length by simp [u16le]; omega,
        length_anonBytes]
      omega

/-- C10, witness: an in-bounds name tag keeps the buffer length, and a
truncated tag-2 whose declared length 6 exceeds the three remaining value
bytes grows the buffer to the full declared extent. -/
theorem c10_witness :
    (anonymizeSection1Tags defaultAnonId
        ([9, 9] ++ encTags [(8, [83, 109, 105, 116, 104])] ++ [7]) 2
        (((encTags [(8, [83, 109, 105, 116, 104])]).length : Nat) : Int)).length
      = (([9, 9] : List Nat) ++ encTags [(8, [83, 109, 105, 116, 104])] ++ [7]).length
    ∧ anonymizeSection1Tags defaultAnonId (([] : List Nat) ++ 2 :: u16le 6 ++ [1, 2, 3]) 0
        ((3 + 6 : Nat) : Int)
      = ([] : List Nat) ++ 2 :: u16le 6 ++ anonBytes defaultAnonId 6 :=
  ⟨c10_theorem.1 defaultAnonId [(8, [83, 109, 105, 116, 104])] [9, 9] [7] (by decide),
    (c10_theorem.2 defaultAnonId [] 6 [1, 2, 3] (by decide) (by decide) (by decide)).1⟩

end SCP
